import Mathlib

/-!
Verification of the highlight-selection engine of the nostalgia-computer-vision
repository.  Arithmetic is embedded over `ℚ` (JS numbers idealised as exact
rationals).  `Math.sqrt` is kept abstract: every definition that needs it takes
a function `s : ℚ → ℚ` applied to the *square* of the quantity whose root the
source takes (so `Math.sqrt 3` becomes `s 3`); theorems assume the properties
of a square root collected in `SqrtOK`, and concrete evaluations instantiate
`s` with `ratSqrt`, which agrees with the real square root on the
perfect-square arguments arising in those evaluations.
-/

namespace NCV

/-- Six-level likelihood ordinal of the vision provider (input domain of
`convertLikelihood` in vision-api.ts). -/
inductive Likelihood where
  | unknown
  | veryUnlikely
  | unlikely
  | possible
  | likely
  | veryLikely
deriving DecidableEq

/-- vision-api.ts `convertLikelihood`: fixed table mapping the ordinal to a
numeric score. -/
def convertLikelihood : Likelihood → ℚ
  | .unknown => 0
  | .veryUnlikely => 0
  | .unlikely => 0.25
  | .possible => 0.5
  | .likely => 0.75
  | .veryLikely => 1

/-- Vertex of a bounding polygon (`v.x || 0`, `v.y || 0` already applied). -/
structure Vertex where
  x : ℚ
  y : ℚ
deriving DecidableEq

/-- types.ts `BoundingBox`. -/
structure BoundingBox where
  left : ℚ
  top : ℚ
  width : ℚ
  height : ℚ
deriving DecidableEq

/-- vision-api.ts `convertBoundingPoly`.  A `null`/`undefined` polygon is
encoded as the empty vertex list, which lands in the same `< 4 vertices`
default branch the source uses for it. -/
def convertBoundingPoly (poly : List Vertex) : BoundingBox :=
  match poly with
  | [] => ⟨0, 0, 0, 0⟩
  | v :: vs =>
    if vs.length + 1 < 4 then ⟨0, 0, 0, 0⟩
    else
      let l := vs.foldl (fun a w => min a w.x) v.x
      let t := vs.foldl (fun a w => min a w.y) v.y
      let r := vs.foldl (fun a w => max a w.x) v.x
      let b := vs.foldl (fun a w => max a w.y) v.y
      ⟨l, t, r - l, b - t⟩

/-- Raw face annotation (the fields of `IFaceAnnotation` the engine reads;
face landmarks are dropped because no scoring path reads them). -/
structure RawFace where
  boundingPoly : List Vertex
  joyLik : Likelihood
  sorrowLik : Likelihood
  angerLik : Likelihood
  surpriseLik : Likelihood
  blurredLik : Likelihood
  headwearLik : Likelihood
  detectionConfidence : ℚ
deriving DecidableEq

/-- Raw label annotation (`description || ''`, `score || 0`,
`topicality || 0` already applied). -/
structure RawLabel where
  description : String
  score : ℚ
  topicality : ℚ
deriving DecidableEq

/-- Raw landmark annotation. -/
structure RawLandmark where
  description : String
  score : ℚ
  boundingPoly : List Vertex
  locations : List (ℚ × ℚ)
deriving DecidableEq

/-- Raw localized object annotation (only its bounding polygon is read). -/
structure RawObject where
  boundingPoly : List Vertex
deriving DecidableEq

/-- An RGB triple (`color.red || 0` etc. already applied). -/
structure RGB where
  red : ℚ
  green : ℚ
  blue : ℚ
deriving DecidableEq

/-- One dominant color entry. -/
structure DomColor where
  color : RGB
  score : ℚ
  pixelFraction : ℚ
deriving DecidableEq

/-- One web entity of the web-detection block. -/
structure WebEntity where
  entityId : Option String
  score : ℚ
  description : Option String
deriving DecidableEq

/-- Web-detection signals.  The source reads the two image lists only through
`.length` and treats an absent list exactly like an empty one at every use
site, so they are embedded as their lengths. -/
structure WebSignals where
  webEntities : List WebEntity
  similarImageCount : ℕ
  partialMatchCount : ℕ
deriving DecidableEq

/-- The slice of `IAnnotateImageResponse` the engine reads.  `domColors` is
`none` when `imagePropertiesAnnotation?.dominantColors?.colors` is nullish and
`some cs` when the array is present — the source distinguishes a present empty
array (truthy in JS) from an absent one, so the embedding must too. -/
structure RawResult where
  faceAnns : List RawFace
  labelAnns : List RawLabel
  landmarkAnns : List RawLandmark
  objectAnns : List RawObject
  domColors : Option (List DomColor)
  web : WebSignals
deriving DecidableEq

/-- Sum of a list of rationals, written as the source writes its
`reduce((sum, x) => sum + x, 0)`. -/
def qsum (l : List ℚ) : ℚ := l.foldl (fun a x => a + x) 0

/-- Squared Euclidean RGB distance; the source takes `Math.sqrt` of exactly
this quantity. -/
def rgbGap2 (c1 c2 : RGB) : ℚ :=
  (c1.red - c2.red) ^ 2 + (c1.green - c2.green) ^ 2 + (c1.blue - c2.blue) ^ 2

/-- Sum over consecutive dominant-color pairs of the Euclidean RGB distance
(the `for i` loops of `evaluateBlur` and `calculateSharpness`). -/
def adjContrastSum (s : ℚ → ℚ) : List DomColor → ℚ
  | c1 :: c2 :: rest => s (rgbGap2 c1.color c2.color) + adjContrastSum s (c2 :: rest)
  | _ => 0

/-- photo-quality.ts `evaluateBlur`. -/
def evaluateBlur (s : ℚ → ℚ) (raw : RawResult) : ℚ :=
  let faceScores := raw.faceAnns.map (fun f => 1 - convertLikelihood f.blurredLik)
  let edgeScores : List ℚ :=
    match raw.domColors with
    | none => []
    | some colors =>
      let edgeStrength := adjContrastSum s colors
      [min (edgeStrength / (255 * s 3 * ((colors.length : ℚ) - 1))) 1]
  let blurScores := faceScores ++ edgeScores
  if blurScores.length = 0 then 0.5
  else if 0 < raw.faceAnns.length then
    let faceBlurAverage := qsum blurScores.dropLast / ((blurScores.length : ℚ) - 1)
    let edgeScore := blurScores.getLastD 0
    faceBlurAverage * 0.7 + edgeScore * 0.3
  else qsum blurScores / (blurScores.length : ℚ)

/-- Sum of a list of optional rationals; `none` (a non-finite IEEE value)
absorbs the whole sum, as `NaN` does in JS addition. -/
def optSum : List (Option ℚ) → Option ℚ
  | [] => some 0
  | none :: _ => none
  | some x :: rest => (optSum rest).map (fun y => x + y)

/-- photo-quality.ts `evaluateBlur` again, but with each division that the
source performs guarded: `none` marks a zero divisor, where JS IEEE
arithmetic yields a non-finite value instead of a score.  Both guarded
divisors vanish only with a zero numerator (the edge normalizer
`255 * sqrt 3 * (colors.length - 1)` is zero only for a single color, when
the contrast loop ran zero times; the face average divisor
`blurScores.length - 1` is zero only when the slice is empty), so `none` is
exactly the source's `NaN`.  `evaluateBlur` is this computation under the
total convention `q / 0 = 0`. -/
def evaluateBlurFin (s : ℚ → ℚ) (raw : RawResult) : Option ℚ :=
  let faceScores : List (Option ℚ) :=
    raw.faceAnns.map (fun f => some (1 - convertLikelihood f.blurredLik))
  let edgeScores : List (Option ℚ) :=
    match raw.domColors with
    | none => []
    | some colors =>
      let den := 255 * s 3 * ((colors.length : ℚ) - 1)
      [if den = 0 then none else some (min (adjContrastSum s colors / den) 1)]
  let blurScores := faceScores ++ edgeScores
  if blurScores.length = 0 then some 0.5
  else if 0 < raw.faceAnns.length then
    if ((blurScores.length : ℚ) - 1) = 0 then none
    else
      match optSum blurScores.dropLast, blurScores.getLastD (some 0) with
      | some fsum, some edge =>
        some ((fsum / ((blurScores.length : ℚ) - 1)) * 0.7 + edge * 0.3)
      | _, _ => none
  else
    match optSum blurScores with
    | some total => some (total / (blurScores.length : ℚ))
    | none => none

/-- photo-quality.ts `evaluateExposure`. -/
def evaluateExposure (raw : RawResult) : ℚ :=
  match raw.domColors with
  | none => 0.5
  | some colors =>
    let totals := colors.foldl
      (fun (acc : ℚ × ℚ) c =>
        let brightness := (c.color.red + c.color.green + c.color.blue) / (3 * 255)
        let weight := c.pixelFraction
        (acc.1 + brightness * weight, acc.2 + weight))
      (0, 0)
    let averageBrightness := if 0 < totals.2 then totals.1 / totals.2 else 0.5
    1 - |averageBrightness - 0.5| * 2

/-- Accumulator of `evaluateNoise`: starting from score `1` and weight `0`,
subtract normalized color difference times combined pixel fraction for each
adjacent pair, and add up the weights. -/
def noiseAccum (s : ℚ → ℚ) : List DomColor → ℚ × ℚ
  | c1 :: c2 :: rest =>
    let colorDifference := s (rgbGap2 c1.color c2.color) / (255 * s 3)
    let weight := c1.pixelFraction + c2.pixelFraction
    let acc := noiseAccum s (c2 :: rest)
    (acc.1 - colorDifference * weight, acc.2 + weight)
  | _ => (1, 0)

/-- photo-quality.ts `evaluateNoise`.  The `totalWeight || 1` of the source is
the `if … = 0 then 1` branch. -/
def evaluateNoise (s : ℚ → ℚ) (raw : RawResult) : ℚ :=
  match raw.domColors with
  | none => 0.5
  | some colors =>
    if colors.length < 2 then 0.5
    else
      let acc := noiseAccum s colors
      let denom := if acc.2 = 0 then 1 else acc.2
      max 0 (min 1 (acc.1 / denom))

/-- The subject boxes of `evaluateRuleOfThirds` / `evaluateSubjectProminence`:
faces, landmarks and localized objects.  The source filters out `null` boxes,
which is a no-op since `convertBoundingPoly` is total. -/
def subjectBoxes (raw : RawResult) : List BoundingBox :=
  raw.faceAnns.map (fun f => convertBoundingPoly f.boundingPoly)
    ++ raw.landmarkAnns.map (fun l => convertBoundingPoly l.boundingPoly)
    ++ raw.objectAnns.map (fun o => convertBoundingPoly o.boundingPoly)

/-- Per-subject score of `evaluateRuleOfThirds`. -/
def thirdsSubjectScore (box : BoundingBox) : ℚ :=
  let centerX := box.left + box.width / 2
  let centerY := box.top + box.height / 2
  let distanceToVertical := min |0.33 - centerX| |0.67 - centerX|
  let distanceToHorizontal := min |0.33 - centerY| |0.67 - centerY|
  1 - min ((distanceToVertical + distanceToHorizontal) / 2) 1

/-- photo-quality.ts `evaluateRuleOfThirds` (`null` is `none`). -/
def evaluateRuleOfThirds (raw : RawResult) : Option ℚ :=
  let subjects := subjectBoxes raw
  if subjects.length = 0 then none
  else some (qsum (subjects.map thirdsSubjectScore) / (subjects.length : ℚ))

/-- Per-subject score of `evaluateSubjectProminence`. -/
def prominenceSubjectScore (s : ℚ → ℚ) (box : BoundingBox) : ℚ :=
  let subjectArea := box.width * box.height
  let areaScore := min (subjectArea / (1 * 0.5)) 1
  let centerX := box.left + box.width / 2
  let centerY := box.top + box.height / 2
  let distanceFromCenter := s ((centerX - 0.5) ^ 2 + (centerY - 0.5) ^ 2)
  let positionScore := 1 - min (distanceFromCenter / 0.5) 1
  areaScore * 0.6 + positionScore * 0.4

/-- photo-quality.ts `evaluateSubjectProminence`. -/
def evaluateSubjectProminence (s : ℚ → ℚ) (raw : RawResult) : Option ℚ :=
  let subjects := subjectBoxes raw
  if subjects.length = 0 then none
  else some (qsum (subjects.map (prominenceSubjectScore s)) / (subjects.length : ℚ))

/-- photo-quality.ts `evaluateVisualBalance`.  Note the quirk preserved from
the source: every color contributes half its weight to each of the four
quadrant accumulators, so left and right (and top and bottom) always end up
equal. -/
def evaluateVisualBalance (raw : RawResult) : Option ℚ :=
  match raw.domColors with
  | none => none
  | some colors =>
    if colors.length = 0 then none
    else
      let ws := colors.foldl
        (fun (acc : ℚ × ℚ × ℚ × ℚ) c =>
          let weight := c.pixelFraction * (c.color.red + c.color.green + c.color.blue) / (3 * 255)
          (acc.1 + weight * 0.5, acc.2.1 + weight * 0.5,
            acc.2.2.1 + weight * 0.5, acc.2.2.2 + weight * 0.5))
        (0, 0, 0, 0)
      let horizontalBalance := 1 - |ws.1 - ws.2.1|
      let verticalBalance := 1 - |ws.2.2.1 - ws.2.2.2|
      some (horizontalBalance * 0.5 + verticalBalance * 0.5)

/-- photo-quality.ts `evaluateComposition`: weighted contributions of the
non-null sub-scores divided by their count, defaulting to `0.5` when all
three are null. -/
def evaluateComposition (s : ℚ → ℚ) (raw : RawResult) : ℚ :=
  let acc1 : ℚ × ℕ :=
    match evaluateRuleOfThirds raw with
    | some t => (t * 0.4, 1)
    | none => (0, 0)
  let acc2 : ℚ × ℕ :=
    match evaluateSubjectProminence s raw with
    | some p => (acc1.1 + p * 0.3, acc1.2 + 1)
    | none => acc1
  let acc3 : ℚ × ℕ :=
    match evaluateVisualBalance raw with
    | some b => (acc2.1 + b * 0.3, acc2.2 + 1)
    | none => acc2
  if 0 < acc3.2 then acc3.1 / (acc3.2 : ℚ) else 0.5

/-- types.ts `QualityMetrics`. -/
structure QualityMetrics where
  blurScore : ℚ
  exposureScore : ℚ
  noiseScore : ℚ
  compositionScore : ℚ
deriving DecidableEq

/-- The `quality` block assembled inside `analyzePhoto`. -/
def mkQuality (s : ℚ → ℚ) (raw : RawResult) : QualityMetrics :=
  ⟨evaluateBlur s raw, evaluateExposure raw, evaluateNoise s raw, evaluateComposition s raw⟩

/-- Properties of `Math.sqrt` the bound proofs rely on. -/
structure SqrtOK (s : ℚ → ℚ) : Prop where
  nonneg : ∀ x, 0 ≤ s x
  one_le : ∀ x, 1 ≤ x → 1 ≤ s x
  map_zero : s 0 = 0

/-- Floor square root of a natural number, written so that the kernel can
evaluate it: it counts the positive integers whose square fits below `n`. -/
def natSqrtL (n : ℕ) : ℕ := (List.range n).countP (fun k => (k + 1) * (k + 1) ≤ n)

/-- A computable stand-in for `Math.sqrt`: for `q = p / d` in lowest terms it
returns `⌊√(p·d)⌋ / d`, which is exact whenever `q` is the square of a
rational (in particular on every argument fed to it by the concrete
evaluations below) and satisfies `SqrtOK` everywhere. -/
def ratSqrt (q : ℚ) : ℚ := (natSqrtL (q.num.toNat * q.den) : ℚ) / (q.den : ℚ)

/-! ## The converted data model (types.ts), as built by `analyzePhoto` -/

/-- types.ts `EmotionScores` (numeric, after `convertLikelihood`). -/
structure EmotionScores where
  joy : ℚ
  sorrow : ℚ
  anger : ℚ
  surprise : ℚ
deriving DecidableEq

/-- types.ts `FaceAnalysis` (face landmark points dropped: no scoring path
reads them). -/
structure FaceAnalysis where
  boundingBox : BoundingBox
  emotions : EmotionScores
  confidence : ℚ
  blurred : Bool
  headwear : Bool
deriving DecidableEq

/-- types.ts `Label`. -/
structure Label where
  description : String
  score : ℚ
  topicality : ℚ
deriving DecidableEq

/-- types.ts `Landmark`. -/
structure Landmark where
  name : String
  score : ℚ
  boundingBox : BoundingBox
  locations : List (ℚ × ℚ)
deriving DecidableEq

/-- types.ts `ImageProperties`. -/
structure ImageProperties where
  dominantColors : List DomColor
  brightness : ℚ
  contrast : ℚ
  sharpness : ℚ
deriving DecidableEq

/-- photo.ts `calculateBrightness` (per dominant-color list). -/
def calculateBrightness (colors : List DomColor) : ℚ :=
  colors.foldl
    (fun sum c =>
      sum + (c.color.red + c.color.green + c.color.blue) / 3 / 255 * c.pixelFraction)
    0

/-- photo.ts `calculateContrast`. -/
def calculateContrast (colors : List DomColor) : ℚ :=
  match colors with
  | c :: cs =>
    if cs.length + 1 < 2 then 0
    else
      let br := fun (d : DomColor) => (d.color.red + d.color.green + d.color.blue) / 3
      let maxBrightness := cs.foldl (fun a d => max a (br d)) (br c)
      let minBrightness := cs.foldl (fun a d => min a (br d)) (br c)
      (maxBrightness - minBrightness) / 255
  | [] => 0

/-- photo.ts `calculateSharpness`. -/
def calculateSharpness (s : ℚ → ℚ) (colors : List DomColor) : ℚ :=
  if colors.length < 2 then 0
  else min (adjContrastSum s colors / ((colors.length : ℚ) - 1) / 442) 1

/-- highlighter.ts `processImageProperties`. -/
def processImageProperties (s : ℚ → ℚ) : Option (List DomColor) → ImageProperties
  | none => ⟨[], 0, 0, 0⟩
  | some colors =>
    ⟨colors, calculateBrightness colors, calculateContrast colors, calculateSharpness s colors⟩

/-- types.ts `PhotoAnalysis` (safe-search flags and the clustering labels are
dropped: neither is read by scoring, similarity or selection). -/
structure PhotoAnalysis where
  faces : List FaceAnalysis
  labels : List Label
  landmarks : List Landmark
  imageProperties : ImageProperties
  webDetection : WebSignals
  quality : QualityMetrics
deriving DecidableEq

/-- The pure conversion performed by `analyzePhoto` on the provider response. -/
def mkAnalysis (s : ℚ → ℚ) (raw : RawResult) : PhotoAnalysis :=
  { faces := raw.faceAnns.map (fun f =>
      { boundingBox := convertBoundingPoly f.boundingPoly
        emotions :=
          { joy := convertLikelihood f.joyLik
            sorrow := convertLikelihood f.sorrowLik
            anger := convertLikelihood f.angerLik
            surprise := convertLikelihood f.surpriseLik }
        confidence := f.detectionConfidence
        blurred := 0.5 < convertLikelihood f.blurredLik
        headwear := 0.5 < convertLikelihood f.headwearLik })
    labels := raw.labelAnns.map (fun l => ⟨l.description, l.score, l.topicality⟩)
    landmarks := raw.landmarkAnns.map (fun l =>
      ⟨l.description, l.score, convertBoundingPoly l.boundingPoly, l.locations⟩)
    imageProperties := processImageProperties s raw.domColors
    webDetection := raw.web
    quality := mkQuality s raw }

/-- types.ts `Photo`: the fields the engine reads (capture time in epoch
milliseconds as a rational, optional location). -/
structure Photo where
  id : String
  dateTime : ℚ
  location : Option (ℚ × ℚ)
deriving DecidableEq

/-- types.ts `EnhancedPhoto` before scoring. -/
structure EnhancedPhoto where
  photo : Photo
  analysis : PhotoAnalysis
deriving DecidableEq

/-- types.ts `PhotoScores`. -/
structure PhotoScores where
  quality : ℚ
  interest : ℚ
  emotion : ℚ
  uniqueness : ℚ
  relevance : ℚ
  temporal : ℚ
  final : ℚ
deriving DecidableEq

/-- A photo carrying its `PhotoScores`.  The source type has `scores`
optional and reads it as `p.scores?.x || 0`; every photo reaching the
selection stage carries scores, on which that expression equals plain field
access, so scores are embedded as a mandatory field. -/
structure ScoredPhoto where
  photo : Photo
  analysis : PhotoAnalysis
  scores : PhotoScores
deriving DecidableEq

/-! ## Similarity evaluators (photo-meta-similarity.ts, colors.ts, and the
local helpers of `checkPhotoSimilarity`) -/

/-- Stable insertion into a list sorted by `le` (`le x y` = "x may precede
y"); a new element goes after every element it compares equal to, which is
exactly the stability guarantee of `Array.prototype.sort`. -/
def insertSorted {α : Type} (le : α → α → Bool) (a : α) : List α → List α
  | [] => [a]
  | b :: bs => if le b a then b :: insertSorted le a bs else a :: b :: bs

/-- Stable sort by repeated insertion, the embedding of `Array.sort`. -/
def sortBy {α : Type} (le : α → α → Bool) (l : List α) : List α :=
  l.foldl (fun s a => insertSorted le a s) []

/-- Lexicographic comparison of character lists (JS compares strings by
UTF-16 code units; on the ASCII fingerprint strings this coincides with
codepoint order). -/
def charsLe : List Char → List Char → Bool
  | [], _ => true
  | _ :: _, [] => false
  | a :: as, b :: bs => if a < b then true else if b < a then false else charsLe as bs

/-- JS string comparison used by the default `Array.sort`. -/
def strLe (a b : String) : Bool := charsLe a.toList b.toList

/-- JS `Math.round`: round half toward positive infinity. -/
def jsRound (q : ℚ) : ℤ := Rat.floor (q + 0.5)

/-- The per-box piece of the layout fingerprint. -/
def boxPiece (box : BoundingBox) : String :=
  toString (jsRound box.left) ++ (",") ++ toString (jsRound box.top) ++ (",")
    ++ toString (jsRound box.width) ++ (",") ++ toString (jsRound box.height)

/-- photo-meta-similarity.ts `createLayoutFingerprint` (also inlined in
`calculateLayoutUniqueness`): rounded box coordinates, sorted, joined. -/
def createLayoutFingerprint (elements : List BoundingBox) : String :=
  String.intercalate ("|") (sortBy strLe (elements.map boxPiece))

/-- Split of a character list on a separator character, with the JS
`String.prototype.split` semantics for a one-character separator: the split
of the empty string is `[""]`, never `[]`, and separators at the edges
produce empty pieces. -/
def splitChars (sep : Char) : List Char → List (List Char)
  | [] => [[]]
  | c :: cs =>
    if c == sep then [] :: splitChars sep cs
    else
      match splitChars sep cs with
      | [] => [[c]]
      | h :: t => (c :: h) :: t

/-- The JS `layout.split('|')`. -/
def jsSplitPipe (s : String) : List String :=
  (splitChars ('|') s.toList).map (fun l => String.mk l)

/-- photo-meta-similarity.ts `calculateLayoutSimilarity`. -/
def calculateLayoutSimilarity (layout1 layout2 : String) : ℚ :=
  let elements1 := jsSplitPipe layout1
  let elements2 := jsSplitPipe layout2
  if elements1.length = 0 ∨ elements2.length = 0 then 0
  else
    let maxLength : ℕ := max elements1.length elements2.length
    let matchingElements := elements1.filter (fun e => elements2.contains e)
    (matchingElements.length : ℚ) / (maxLength : ℚ)

/-- photo-meta-similarity.ts `calculateColorSimilarity`: cross-pair color
closeness weighted by pixel-fraction products, divided by the number of
pairs. -/
def calculateColorSimilarity (s : ℚ → ℚ) (colors1 colors2 : List DomColor) : ℚ :=
  if colors1.length = 0 ∨ colors2.length = 0 then 0
  else
    let totalSimilarity := colors1.foldl
      (fun acc c1 => colors2.foldl
        (fun acc2 c2 =>
          let similarity := 1 - s (rgbGap2 c1.color c2.color) / 441.67
          acc2 + similarity * (c1.pixelFraction * c2.pixelFraction))
        acc)
      0
    let comparisons : ℕ := colors1.length * colors2.length
    if 0 < comparisons then totalSimilarity / (comparisons : ℚ) else 0

/-- The face and landmark boxes of a photo (`getVisualElements`). -/
def getVisualElements (a : PhotoAnalysis) : List BoundingBox :=
  a.faces.map (fun f => f.boundingBox) ++ a.landmarks.map (fun l => l.boundingBox)

/-- photo-meta-similarity.ts `calculateVisualFeatureSimilarity`. -/
def calculateVisualFeatureSimilarity (s : ℚ → ℚ) (a1 a2 : PhotoAnalysis) : ℚ :=
  let colorSimilarity :=
    calculateColorSimilarity s a1.imageProperties.dominantColors a2.imageProperties.dominantColors
  let layout1 := createLayoutFingerprint (getVisualElements a1)
  let layout2 := createLayoutFingerprint (getVisualElements a2)
  let layoutSimilarity := calculateLayoutSimilarity layout1 layout2
  colorSimilarity * 0.6 + layoutSimilarity * 0.4

/-- photo-meta-similarity.ts `calculateWebEntitySimilarity`: Jaccard index
of the (deduplicated) defined entity-id sets.  JS `Set` is embedded through
`List.dedup`; only cardinalities of the sets are consumed. -/
def calculateWebEntitySimilarity (a1 a2 : PhotoAnalysis) : ℚ :=
  let entities1 := a1.webDetection.webEntities
  let entities2 := a2.webDetection.webEntities
  if entities1.length = 0 ∨ entities2.length = 0 then 0
  else
    let entityIds1 := (entities1.filterMap (fun e => e.entityId)).dedup
    let entityIds2 := (entities2.filterMap (fun e => e.entityId)).dedup
    if entityIds1.length = 0 ∨ entityIds2.length = 0 then 0
    else
      let intersection := entityIds1.filter (fun x => entityIds2.contains x)
      let union := (entityIds1 ++ entityIds2).dedup
      (intersection.length : ℚ) / (union.length : ℚ)

/-- The label-Jaccard helper declared inside `checkPhotoSimilarity`. -/
def calculateLabelSimilarity (a1 a2 : PhotoAnalysis) : ℚ :=
  let labels1 := (a1.labels.map (fun l => l.description)).dedup
  let labels2 := (a2.labels.map (fun l => l.description)).dedup
  if labels1.length = 0 ∨ labels2.length = 0 then 0
  else
    let intersection := labels1.filter (fun x => labels2.contains x)
    let union := (labels1 ++ labels2).dedup
    (intersection.length : ℚ) / (union.length : ℚ)

/-- highlighter.ts `checkPhotoSimilarity`.  `geo` abstracts the Haversine
`calculateDistance` of distance.ts (transcendental, so kept as a parameter
like `Math.sqrt`); it returns meters. -/
def checkPhotoSimilarity (s : ℚ → ℚ) (geo : ℚ × ℚ → ℚ × ℚ → ℚ)
    (p1 p2 : ScoredPhoto) : Bool :=
  let timeDiff := |p1.photo.dateTime - p2.photo.dateTime|
  if 5 * 60 * 1000 < timeDiff then false
  else
    let visualVerdict : Bool :=
      let totalSimilarity :=
        calculateLabelSimilarity p1.analysis p2.analysis * 0.4
          + calculateWebEntitySimilarity p1.analysis p2.analysis * 0.3
          + calculateVisualFeatureSimilarity s p1.analysis p2.analysis * 0.3
      0.8 < totalSimilarity
    match p1.photo.location, p2.photo.location with
    | some l1, some l2 => if 100 < geo l1 l2 then false else visualVerdict
    | _, _ => visualVerdict

/-- colors.ts `areColorsSimilar`.  The source round-trips each RGB triple
through the string `"r,g,b"`; that round trip is the identity on the numeric
components, so the embedding compares the triples directly. -/
def areColorsSimilar (s : ℚ → ℚ) (c1 c2 : RGB) : Bool :=
  s (rgbGap2 c1 c2) < 30

/-! ## Label-frequency tracker and the scoring engine -/

/-- JS `Map<string, number>` as an insertion-ordered association list. -/
def mapGet (m : List (String × ℕ)) (k : String) : Option ℕ :=
  (m.find? (fun kv => kv.1 == k)).map (fun kv => kv.2)

/-- JS `Map.set`: overwrite in place when the key exists, else append. -/
def mapSet (m : List (String × ℕ)) (k : String) (v : ℕ) : List (String × ℕ) :=
  if m.any (fun kv => kv.1 == k) then
    m.map (fun kv => if kv.1 == k then (k, v) else kv)
  else m ++ [(k, v)]

/-- types.ts `LabelFrequencies`. -/
structure LabelFrequencies where
  individual : List (String × ℕ)
  combinations : List (String × ℕ)
deriving DecidableEq

/-- The key of a label pair: the two descriptions sorted and joined
(`[a, b].sort().join('|')`). -/
def comboKey (a b : String) : String :=
  String.intercalate ("|") (sortBy strLe [a, b])

/-- All index pairs `i < j` of a list in the order of the source's nested
`for` loops. -/
def listPairs {α : Type} : List α → List (α × α)
  | [] => []
  | x :: xs => xs.map (fun y => (x, y)) ++ listPairs xs

/-- highlighter.ts `updateLabelFrequencies`. -/
def updateLabelFrequencies (freqs : LabelFrequencies) (labels : List Label) :
    LabelFrequencies :=
  let individual := labels.foldl
    (fun m l => mapSet m l.description ((mapGet m l.description).getD 0 + 1))
    freqs.individual
  let combinations := (listPairs labels).foldl
    (fun m pr =>
      let combo := comboKey pr.1.description pr.2.description
      mapSet m combo ((mapGet m combo).getD 0 + 1))
    freqs.combinations
  ⟨individual, combinations⟩

/-- The `map.get(k) || 1` lookup of `calculateLabelUniqueness`: absent keys
and stored zeros (both falsy) default to 1. -/
def freqLookup (m : List (String × ℕ)) (k : String) : ℕ :=
  match mapGet m k with
  | some n => if n = 0 then 1 else n
  | none => 1

/-- highlighter.ts `calculateLabelUniqueness`. -/
def calculateLabelUniqueness (s : ℚ → ℚ) (freqs : LabelFrequencies)
    (labels : List Label) : ℚ :=
  if labels.length = 0 then 0
  else
    let individualScores := labels.map (fun l =>
      let frequency := freqLookup freqs.individual l.description
      let uniqueness := 1 / s (frequency : ℚ)
      uniqueness * l.score)
    let combinationScores := (listPairs labels).map (fun pr =>
      let combo := comboKey pr.1.description pr.2.description
      let frequency := freqLookup freqs.combinations combo
      let uniqueness := 1 / s (frequency : ℚ)
      uniqueness * min pr.1.score pr.2.score)
    let avgIndividualScore := qsum individualScores / (individualScores.length : ℚ)
    let avgCombinationScore :=
      if 0 < combinationScores.length then
        qsum combinationScores / (combinationScores.length : ℚ)
      else 0
    avgIndividualScore * 0.4 + avgCombinationScore * 0.6

/-- highlighter.ts `calculateVisualUniqueness`. -/
def calculateVisualUniqueness (web : WebSignals) : ℚ :=
  if web.similarImageCount = 0 then 1
  else
    let similarityScore := max 0 (1 - (web.similarImageCount : ℚ) / 10)
    let partialMatchScore :=
      if web.partialMatchCount ≠ 0 then max 0 (1 - (web.partialMatchCount : ℚ) / 5)
      else 1
    similarityScore * 0.7 + partialMatchScore * 0.3

/-- highlighter.ts `calculateColorUniqueness` (`pool` is `this.photos`). -/
def calculateColorUniqueness (s : ℚ → ℚ) (pool : List EnhancedPhoto)
    (properties : ImageProperties) : ℚ :=
  let colors := properties.dominantColors
  if colors.length = 0 then 0
  else
    let uniquenessScore := colors.foldl
      (fun acc color =>
        let similarityCount := pool.countP (fun otherPhoto =>
          otherPhoto.analysis.imageProperties.dominantColors.any (fun otherColor =>
            areColorsSimilar s color.color otherColor.color))
        acc + (1 - (similarityCount : ℚ) / (pool.length : ℚ)) * color.pixelFraction)
      0
    uniquenessScore / (colors.length : ℚ)

/-- highlighter.ts `calculateLayoutUniqueness` (the fingerprint construction
is the same map-sort-join as `createLayoutFingerprint`). -/
def calculateLayoutUniqueness (pool : List EnhancedPhoto)
    (faces : List FaceAnalysis) (landmarks : List Landmark) : ℚ :=
  let elements := faces.map (fun f => f.boundingBox)
    ++ landmarks.map (fun l => l.boundingBox)
  if elements.length = 0 then 0.5
  else
    let layoutFingerprint := createLayoutFingerprint elements
    let similarLayoutCount := pool.countP (fun otherPhoto =>
      0.8 < calculateLayoutSimilarity layoutFingerprint
        (createLayoutFingerprint (getVisualElements otherPhoto.analysis)))
    1 - (similarLayoutCount : ℚ) / (pool.length : ℚ)

/-- highlighter.ts `calculateCompositionUniqueness`. -/
def calculateCompositionUniqueness (s : ℚ → ℚ) (pool : List EnhancedPhoto)
    (p : EnhancedPhoto) : ℚ :=
  let colorUniqueness := calculateColorUniqueness s pool p.analysis.imageProperties
  let layoutUniqueness := calculateLayoutUniqueness pool p.analysis.faces p.analysis.landmarks
  colorUniqueness * 0.5 + layoutUniqueness * 0.5

/-- The `calculateUniquenessScore` closure of `selectHighlights`. -/
def calculateUniquenessScore (s : ℚ → ℚ) (pool : List EnhancedPhoto)
    (freqs : LabelFrequencies) (p : EnhancedPhoto) : ℚ :=
  let labelUniqueness := calculateLabelUniqueness s freqs p.analysis.labels
  let visualUniqueness := calculateVisualUniqueness p.analysis.webDetection
  let compositionUniqueness := calculateCompositionUniqueness s pool p
  labelUniqueness * 0.4 + visualUniqueness * 0.4 + compositionUniqueness * 0.2

/-- The `calculateFaceInterestScore` closure. -/
def calculateFaceInterestScore (faces : List FaceAnalysis) : ℚ :=
  if faces.length = 0 then 0
  else
    let faceScores := faces.map (fun face =>
      let emotionScore := max face.emotions.joy
        (max face.emotions.surprise
          (max (face.emotions.sorrow * 0.5) (face.emotions.anger * 0.5)))
      let qualityScore := face.confidence * (if face.blurred then 0.5 else 1)
      emotionScore * 0.6 + qualityScore * 0.4)
    let multipleFaceFactor := min ((faces.length : ℚ) / 3) 1
    let averageScore := qsum faceScores / (faceScores.length : ℚ)
    averageScore * (1 + multipleFaceFactor * 0.2)

/-- The `calculateLandmarkInterestScore` closure. -/
def calculateLandmarkInterestScore (landmarks : List Landmark) : ℚ :=
  if landmarks.length = 0 then 0
  else
    landmarks.foldl
      (fun score landmark =>
        let confidence := landmark.score
        let hasLocation : Bool := 0 < landmark.locations.length
        max score (confidence * (if hasLocation then 1.2 else 1)))
      0

/-- The `calculateWebInterestScore` closure.  `Boolean(entity.description)`
is false for an absent and for an empty description (both falsy). -/
def calculateWebInterestScore (web : WebSignals) : ℚ :=
  if web.webEntities.length = 0 then 0
  else
    let entityScores := web.webEntities.map (fun e =>
      let hasDescription : Bool :=
        match e.description with
        | some d => d ≠ ""
        | none => false
      (e.score, hasDescription))
    let averageScore :=
      qsum (entityScores.map (fun es => es.1 * (if es.2 then 1.2 else 1)))
        / (entityScores.length : ℚ)
    min (averageScore / 0.8) 1

/-- The keyword lists of `calculateLabelInterestScore`, in object-property
order (events, activities, nature, emotions, landmarks). -/
def interestingCategories : List (List String) :=
  [[("wedding"), ("party"), ("celebration"), ("ceremony"), ("festival")],
   [("sport"), ("dance"), ("performance"), ("game"), ("adventure")],
   [("sunset"), ("beach"), ("mountain"), ("landscape"), ("wildlife")],
   [("smile"), ("happy"), ("joy"), ("laugh"), ("excited")],
   [("monument"), ("building"), ("architecture"), ("statue"), ("tower")]]

/-- Leading-segment comparison of character lists. -/
def charsLeads : List Char → List Char → Bool
  | [], _ => true
  | _ :: _, [] => false
  | a :: as, b :: bs => a == b && charsLeads as bs

/-- Substring occurrence check on character lists. -/
def charsHasSub : List Char → List Char → Bool
  | needle, [] => needle.isEmpty
  | needle, h :: t => charsLeads needle (h :: t) || charsHasSub needle t

/-- JS `String.prototype.includes`. -/
def strIncludes (hay needle : String) : Bool := charsHasSub needle.toList hay.toList

/-- Whether a label matches a keyword list
(`keywords.some(k => label.description.toLowerCase().includes(k))`). -/
def labelMatchesCategory (keywords : List String) (label : Label) : Bool :=
  keywords.any (fun keyword => strIncludes label.description.toLower keyword)

/-- The final per-category entry of the `categoryScores` map: present iff
some label matches, holding the maximal matching score (base 0). -/
def categoryScore (labels : List Label) (keywords : List String) : Option ℚ :=
  if labels.any (labelMatchesCategory keywords) then
    some (labels.foldl
      (fun cur l => if labelMatchesCategory keywords l then max cur l.score else cur) 0)
  else none

/-- The `calculateLabelInterestScore` closure.  The `categoryScores` map is
consumed only through its size and the sum of its values, so the embedding
collects the per-category entries directly. -/
def calculateLabelInterestScore (labels : List Label) : ℚ :=
  let categoryScores := interestingCategories.filterMap (categoryScore labels)
  if categoryScores.length = 0 then 0.4
  else
    let averageCategoryScore := qsum categoryScores / (categoryScores.length : ℚ)
    let diversityBonus := min (((categoryScores.length : ℚ) - 1) * 0.1) 0.3
    min (averageCategoryScore + diversityBonus) 1

/-- The `calculateInterestScore` closure (weights in `Object.entries`
order: faces, landmarks, labels, web). -/
def calculateInterestScore (a : PhotoAnalysis) : ℚ :=
  calculateFaceInterestScore a.faces * 0.35
    + calculateLandmarkInterestScore a.landmarks * 0.25
    + calculateLabelInterestScore a.labels * 0.25
    + calculateWebInterestScore a.webDetection * 0.15

/-- The `calculateEmotionScore` closure. -/
def calculateEmotionScore (faces : List FaceAnalysis) : ℚ :=
  if faces.length = 0 then 0.5
  else
    let emotionScores := faces.map (fun face =>
      (face.emotions.joy + face.emotions.surprise * 0.7,
        face.emotions.sorrow + face.emotions.anger,
        face.confidence))
    let totalPositive := qsum (emotionScores.map (fun e => e.1 * e.2.2))
    let totalNegative := qsum (emotionScores.map (fun e => e.2.1 * e.2.2))
    let totalConfidence := qsum (emotionScores.map (fun e => e.2.2))
    if totalConfidence = 0 then 0.5
    else
      let normalizedPositive := totalPositive / totalConfidence
      let normalizedNegative := totalNegative / totalConfidence
      min (normalizedPositive * 0.8 + (1 - normalizedNegative) * 0.2) 1

/-- The `calculateRelevanceScore` closure. -/
def calculateRelevanceScore (labels : List Label) (preferredTypes : List String) : ℚ :=
  if preferredTypes.length = 0 then 1
  else
    let relevantLabels := labels.filter (fun l =>
      preferredTypes.any (fun ty => strIncludes l.description.toLower ty.toLower))
    if relevantLabels.length = 0 then 0
    else qsum (relevantLabels.map (fun l => l.score)) / (relevantLabels.length : ℚ)

/-- The `calculateTemporalScore` closure, under the exact-arithmetic
convention that division by a zero range yields 0 (see
`calculateTemporalScoreFin` for the IEEE-aware variant). -/
def calculateTemporalScore (dateTime start finish : ℚ) : ℚ :=
  let totalRange := finish - start
  let position := dateTime - start
  let normalizedPosition := position / totalRange
  let distanceFromMiddle := |0.5 - normalizedPosition|
  1 - distanceFromMiddle

/-- The same Temporal computation with JS float semantics made explicit:
when `timeRange` has zero length the division `position / 0` produces
`NaN` (photo at `start`) or `±Infinity`, never a finite score; `none`
stands for such a non-finite result. -/
def calculateTemporalScoreFin (dateTime start finish : ℚ) : Option ℚ :=
  if finish - start = 0 then none
  else some (1 - |0.5 - (dateTime - start) / (finish - start)|)

/-- The `calculateQualityScore` closure of `selectHighlights`. -/
def calculateQualityScore (q : QualityMetrics) : ℚ :=
  q.blurScore * 0.35 + q.exposureScore * 0.25 + q.noiseScore * 0.2
    + q.compositionScore * 0.2

/-- The six selection weights. -/
structure Weights where
  wquality : ℚ
  winterest : ℚ
  wemotion : ℚ
  wuniqueness : ℚ
  wrelevance : ℚ
  wtemporal : ℚ
deriving DecidableEq

/-- Caller-supplied partial weights (`options.weights`). -/
structure UserWeights where
  uquality : Option ℚ := none
  uinterest : Option ℚ := none
  uemotion : Option ℚ := none
  uuniqueness : Option ℚ := none
  urelevance : Option ℚ := none
  utemporal : Option ℚ := none
deriving DecidableEq

/-- The `defaultWeights` of the constructor. -/
def defaultWeights : Weights := ⟨0.25, 0.2, 0.15, 0.15, 0.15, 0.1⟩

/-- The spread merge `{...this.defaultWeights, ...options.weights}`:
per-key override, not renormalized. -/
def mergeWeights (u : UserWeights) : Weights :=
  ⟨u.uquality.getD defaultWeights.wquality,
    u.uinterest.getD defaultWeights.winterest,
    u.uemotion.getD defaultWeights.wemotion,
    u.uuniqueness.getD defaultWeights.wuniqueness,
    u.urelevance.getD defaultWeights.wrelevance,
    u.utemporal.getD defaultWeights.wtemporal⟩

/-- types.ts `HighlightOptions` (the time range as epoch milliseconds). -/
structure HighlightOptions where
  limit : ℕ
  timeStart : ℚ
  timeEnd : ℚ
  minQuality : ℚ
  preferredTypes : List String
  weights : UserWeights
deriving DecidableEq

/-- The per-photo scoring step of `selectHighlights`: the six dimension
scores plus the weighted final score. -/
def scorePhoto (s : ℚ → ℚ) (pool : List EnhancedPhoto) (freqs : LabelFrequencies)
    (opts : HighlightOptions) (p : EnhancedPhoto) : ScoredPhoto :=
  let q := calculateQualityScore p.analysis.quality
  let i := calculateInterestScore p.analysis
  let e := calculateEmotionScore p.analysis.faces
  let u := calculateUniquenessScore s pool freqs p
  let r := calculateRelevanceScore p.analysis.labels opts.preferredTypes
  let t := calculateTemporalScore p.photo.dateTime opts.timeStart opts.timeEnd
  let w := mergeWeights opts.weights
  let final := q * w.wquality + i * w.winterest + e * w.wemotion
    + u * w.wuniqueness + r * w.wrelevance + t * w.wtemporal
  ⟨p.photo, p.analysis, ⟨q, i, e, u, r, t, final⟩⟩

/-! ## Grouping, time buckets and diverse selection -/

/-- highlighter.ts `groupSimilarPhotos`: one pass over the pool; each not-yet
processed photo starts a group keyed by its id and absorbs every later
unprocessed photo the similarity predicate accepts. -/
def groupSimilarPhotos (s : ℚ → ℚ) (geo : ℚ × ℚ → ℚ × ℚ → ℚ)
    (photos : List ScoredPhoto) : List (String × List ScoredPhoto) :=
  let step := fun (st : List String × List (String × List ScoredPhoto)) (photo : ScoredPhoto) =>
    if st.1.contains photo.photo.id then st
    else
      let processed1 := st.1 ++ [photo.photo.id]
      let inner := photos.foldl
        (fun (acc : List ScoredPhoto × List String) otherPhoto =>
          if photo.photo.id == otherPhoto.photo.id || acc.2.contains otherPhoto.photo.id then
            acc
          else if checkPhotoSimilarity s geo photo otherPhoto then
            (acc.1 ++ [otherPhoto], acc.2 ++ [otherPhoto.photo.id])
          else acc)
        ([photo], processed1)
      (inner.2, st.2 ++ [(photo.photo.id, inner.1)])
  (photos.foldl step ([], [])).2

/-- highlighter.ts `createTimeBuckets`.  In exact arithmetic the source loop
`for (time = start; time < end; time += (end-start)/10)` runs exactly ten
times when `start < end` (the i-th entry satisfies `start + i·d < end` iff
`i < 10`) and zero times otherwise, which the closed form below mirrors. -/
def createTimeBuckets (timeStart timeEnd : ℚ) : List (ℚ × ℚ) :=
  let totalDuration := timeEnd - timeStart
  let bucketDuration := totalDuration / 10
  if timeStart < timeEnd then
    (List.range 10).map (fun i =>
      let time := timeStart + (i : ℚ) * bucketDuration
      (time, min (time + bucketDuration) timeEnd))
  else []

/-- highlighter.ts `getEligibleGroupsForBucket`. -/
def getEligibleGroupsForBucket (groups : List (String × List ScoredPhoto))
    (bucket : ℚ × ℚ) (usedGroups : List String) (minQuality : ℚ) :
    List (String × List ScoredPhoto) :=
  groups.foldl
    (fun eligible g =>
      if usedGroups.contains g.1 then eligible
      else
        let bucketPhotos := g.2.filter (fun photo =>
          decide (bucket.1 ≤ photo.photo.dateTime)
            && decide (photo.photo.dateTime ≤ bucket.2)
            && decide (minQuality ≤ photo.scores.quality))
        if 0 < bucketPhotos.length then eligible ++ [(g.1, bucketPhotos)] else eligible)
    []

/-- `Math.max(...photos.map(p => p.scores?.final || 0))` over a group (the
groups reaching it are nonempty; 0 stands for the empty case JS would turn
into `-Infinity`). -/
def bestScoreOf (photos : List ScoredPhoto) : ℚ :=
  match photos with
  | [] => 0
  | p :: ps => ps.foldl (fun m x => max m x.scores.final) p.scores.final

/-- The `reduce` of `selectBestGroupsFromBucket` picking the earliest
best-final photo of a group (`none` for the empty list, on which the JS
`reduce` would throw; callers only pass nonempty groups). -/
def bestPhotoOf : List ScoredPhoto → Option ScoredPhoto
  | [] => none
  | p :: ps =>
    some (ps.foldl
      (fun best current => if best.scores.final < current.scores.final then current else best)
      p)

/-- highlighter.ts `isPhotoDiverse`. -/
def isPhotoDiverse (s : ℚ → ℚ) (geo : ℚ × ℚ → ℚ × ℚ → ℚ)
    (photo : ScoredPhoto) (selectedPhotos : List ScoredPhoto) : Bool :=
  selectedPhotos.all (fun selected => !(checkPhotoSimilarity s geo photo selected))

/-- highlighter.ts `selectBestGroupsFromBucket`: groups sorted by best final
score (descending, stable), then greedily accept each group's best photo if
it stays diverse, up to `count`. -/
def selectBestGroupsFromBucket (s : ℚ → ℚ) (geo : ℚ × ℚ → ℚ × ℚ → ℚ)
    (eligibleGroups : List (String × List ScoredPhoto)) (count : ℕ)
    (alreadySelected : List ScoredPhoto) : List ScoredPhoto :=
  let sortedGroups := sortBy (fun a b => decide (b.2 ≤ a.2))
    (eligibleGroups.map (fun g => (g.2, bestScoreOf g.2)))
  sortedGroups.foldl
    (fun selections group =>
      if count ≤ selections.length then selections
      else
        match bestPhotoOf group.1 with
        | none => selections
        | some bestPhoto =>
          if isPhotoDiverse s geo bestPhoto (alreadySelected ++ selections) then
            selections ++ [bestPhoto]
          else selections)
    []

/-- highlighter.ts `selectRemainingBestPhotos` (the backfill step). -/
def selectRemainingBestPhotos (groups : List (String × List ScoredPhoto))
    (usedGroups : List String) (count : ℕ) (minQuality : ℚ) : List ScoredPhoto :=
  let candidates := groups.foldl
    (fun acc g =>
      if usedGroups.contains g.1 then acc
      else acc ++ g.2.filter (fun photo => decide (minQuality ≤ photo.scores.quality)))
    []
  (sortBy (fun a b => decide (b.scores.final ≤ a.scores.final)) candidates).take count

/-- highlighter.ts `selectDiverseHighlights`.  Note the id recorded after a
bucket acceptance is the accepted photo's own id (`usedGroups.add(photo.id)`
in the source), not necessarily the id of the group it came from — the
embedding preserves this faithfully.  When there are no buckets the
photos-per-bucket value is never consulted, so its stand-in is 0. -/
def selectDiverseHighlights (s : ℚ → ℚ) (geo : ℚ × ℚ → ℚ × ℚ → ℚ)
    (groups : List (String × List ScoredPhoto)) (opts : HighlightOptions) :
    List ScoredPhoto :=
  let timeBuckets := createTimeBuckets opts.timeStart opts.timeEnd
  let photosPerBucket :=
    if timeBuckets.length = 0 then 0
    else (opts.limit + timeBuckets.length - 1) / timeBuckets.length
  let afterBuckets := timeBuckets.foldl
    (fun (st : List ScoredPhoto × List String) bucket =>
      let eligibleGroups := getEligibleGroupsForBucket groups bucket st.2 opts.minQuality
      let bucketSelections := selectBestGroupsFromBucket s geo eligibleGroups photosPerBucket st.1
      (st.1 ++ bucketSelections, st.2 ++ bucketSelections.map (fun p => p.photo.id)))
    ([], [])
  let selectedPhotos :=
    if afterBuckets.1.length < opts.limit then
      afterBuckets.1 ++ selectRemainingBestPhotos groups afterBuckets.2
        (opts.limit - afterBuckets.1.length) opts.minQuality
    else afterBuckets.1
  selectedPhotos.take opts.limit

/-- highlighter.ts `selectHighlights` as a function of the state it reads:
score every pooled photo, group, then select. -/
def selectHighlights (s : ℚ → ℚ) (geo : ℚ × ℚ → ℚ × ℚ → ℚ)
    (photos : List EnhancedPhoto) (freqs : LabelFrequencies)
    (opts : HighlightOptions) : List ScoredPhoto :=
  let scoredPhotos := photos.map (scorePhoto s photos freqs opts)
  let groups := groupSimilarPhotos s geo scoredPhotos
  selectDiverseHighlights s geo groups opts

/-! ## Selector state, `addPhotos` and the state-passing `selectHighlights` -/

/-- The mutable fields of `GoogleVisionHighlightSelector`. -/
structure SelectorState where
  photos : List EnhancedPhoto
  labelFrequencies : LabelFrequencies
deriving DecidableEq

/-- types.ts `BatchProcessingResult` (errors as strings). -/
structure BatchResult where
  success : List EnhancedPhoto
  failed : List (Photo × String)
deriving DecidableEq

/-- The loop body of `addPhotos`: on success push to the pool, record the
success and update the frequency tables; on failure only record the
(photo, error) pair.  `analyze` abstracts the provider call
`analyzePhoto`. -/
def addPhotosGo (analyze : Photo → Except String EnhancedPhoto)
    (st : SelectorState) (results : BatchResult) :
    List Photo → SelectorState × BatchResult
  | [] => (st, results)
  | photo :: rest =>
    match analyze photo with
    | .ok enhancedPhoto =>
      let st1 : SelectorState :=
        ⟨st.photos ++ [enhancedPhoto],
          updateLabelFrequencies st.labelFrequencies enhancedPhoto.analysis.labels⟩
      addPhotosGo analyze st1 ⟨results.success ++ [enhancedPhoto], results.failed⟩ rest
    | .error e =>
      addPhotosGo analyze st ⟨results.success, results.failed ++ [(photo, e)]⟩ rest

/-- highlighter.ts `addPhotos`. -/
def addPhotos (analyze : Photo → Except String EnhancedPhoto)
    (st : SelectorState) (photos : List Photo) : SelectorState × BatchResult :=
  addPhotosGo analyze st ⟨[], []⟩ photos

/-- `selectHighlights` as an operation on the selector state.  The method
body contains no assignment to `this.photos` or `this.labelFrequencies`
(scored photos are fresh `{...photo, scores}` copies), so the faithful
state-passing translation returns the state it was given. -/
def selectHighlightsRun (s : ℚ → ℚ) (geo : ℚ × ℚ → ℚ × ℚ → ℚ)
    (st : SelectorState) (opts : HighlightOptions) :
    List ScoredPhoto × SelectorState :=
  (selectHighlights s geo st.photos st.labelFrequencies opts, st)

/-! ## Validity of raw annotations, claim-side definitions, concrete inputs -/

/-- Range constraints on a dominant-color list coming from the provider:
8-bit channels and pixel fractions in `[0,1]`. -/
def ColorsOK (cs : List DomColor) : Prop :=
  ∀ c ∈ cs,
    (0 ≤ c.color.red ∧ c.color.red ≤ 255)
    ∧ (0 ≤ c.color.green ∧ c.color.green ≤ 255)
    ∧ (0 ≤ c.color.blue ∧ c.color.blue ≤ 255)
    ∧ (0 ≤ c.pixelFraction ∧ c.pixelFraction ≤ 1)

/-- A valid annotation response: confidences and scores in `[0,1]`, channels
in `[0,255]`.  The two cardinality clauses exclude exactly the inputs on
which the source's `evaluateBlur` divides zero by zero in IEEE arithmetic
(a single dominant color, or a single face with no color block), producing a
`NaN` score that no interval statement can describe. -/
def ValidRaw (raw : RawResult) : Prop :=
  (∀ f ∈ raw.faceAnns, 0 ≤ f.detectionConfidence ∧ f.detectionConfidence ≤ 1)
  ∧ (∀ l ∈ raw.labelAnns, 0 ≤ l.score ∧ l.score ≤ 1)
  ∧ (∀ l ∈ raw.landmarkAnns, 0 ≤ l.score ∧ l.score ≤ 1)
  ∧ (∀ e ∈ raw.web.webEntities, 0 ≤ e.score ∧ e.score ≤ 1)
  ∧ (match raw.domColors with
     | none => raw.faceAnns.length ≠ 1
     | some cs => ColorsOK cs ∧ cs.length ≠ 1)

/-- Converted faces with emotion scores and confidence in `[0,1]`. -/
def ValidFaces (faces : List FaceAnalysis) : Prop :=
  ∀ f ∈ faces,
    (0 ≤ f.emotions.joy ∧ f.emotions.joy ≤ 1)
    ∧ (0 ≤ f.emotions.sorrow ∧ f.emotions.sorrow ≤ 1)
    ∧ (0 ≤ f.emotions.anger ∧ f.emotions.anger ≤ 1)
    ∧ (0 ≤ f.emotions.surprise ∧ f.emotions.surprise ≤ 1)
    ∧ (0 ≤ f.confidence ∧ f.confidence ≤ 1)

/-- Converted labels with scores in `[0,1]`. -/
def ValidLabels (labels : List Label) : Prop :=
  ∀ l ∈ labels, 0 ≤ l.score ∧ l.score ≤ 1

/-- Converted landmarks with scores in `[0,1]`. -/
def ValidLandmarks (landmarks : List Landmark) : Prop :=
  ∀ l ∈ landmarks, 0 ≤ l.score ∧ l.score ≤ 1

/-- Web entities with scores in `[0,1]`. -/
def ValidEntities (es : List WebEntity) : Prop :=
  ∀ e ∈ es, 0 ≤ e.score ∧ e.score ≤ 1

/-- Dominant colors with pixel fractions in `[0,1]`. -/
def ValidFractions (cs : List DomColor) : Prop :=
  ∀ c ∈ cs, 0 ≤ c.pixelFraction ∧ c.pixelFraction ≤ 1

/-- The per-face not-blurred scores of `evaluateBlur`. -/
def faceNotBlurred (raw : RawResult) : List ℚ :=
  raw.faceAnns.map (fun f => 1 - convertLikelihood f.blurredLik)

/-- The edge-strength estimate `evaluateBlur` appends for a present color
list. -/
def edgeEstimate (s : ℚ → ℚ) (cs : List DomColor) : ℚ :=
  min (adjContrastSum s cs / (255 * s 3 * ((cs.length : ℚ) - 1))) 1

/-- Modelled from the claim wording of C5 (spec §4.1 Blur), for comparison
against `evaluateBlur`: with faces present the blend
`0.7·(average not-blurred over all faces) + 0.3·(edge estimate)`, with the
zero-pair edge estimate of an absent color list read as 0; with no faces the
edge estimate alone; with neither, 0.5. -/
def claimedBlur (s : ℚ → ℚ) (raw : RawResult) : ℚ :=
  let faceAvg := qsum (faceNotBlurred raw) / (raw.faceAnns.length : ℚ)
  let edge :=
    match raw.domColors with
    | none => 0
    | some cs => edgeEstimate s cs
  if 0 < raw.faceAnns.length then faceAvg * 0.7 + edge * 0.3
  else
    match raw.domColors with
    | none => 0.5
    | some _ => edge

/-- A face annotation with given emotion likelihoods and confidence and no
other signals. -/
def mkRawFace (joy sorrow anger surprise : Likelihood) (conf : ℚ) : RawFace :=
  ⟨[], joy, sorrow, anger, surprise, .unknown, .unknown, conf⟩

/-- Empty web block. -/
def webEmpty : WebSignals := ⟨[], 0, 0⟩

/-- C1 counterexample input: two fully confident faces that are very likely
sad and very likely angry, with no other annotations. -/
def rawSad : RawResult :=
  ⟨[mkRawFace .unknown .veryLikely .veryLikely .unknown 1,
    mkRawFace .unknown .veryLikely .veryLikely .unknown 1], [], [], [], none, webEmpty⟩

/-- C1 witness input: a response with no annotations at all. -/
def rawEmpty : RawResult := ⟨[], [], [], [], none, webEmpty⟩

/-- C1 `NaN` input: exactly one face and no dominant-color block, so the
source's face average divides `0` by `blurScores.length - 1 = 0`. -/
def rawOneFace : RawResult :=
  ⟨[mkRawFace .unknown .unknown .unknown .unknown 1], [], [], [], none, webEmpty⟩

/-- C1 `NaN` input: exactly one dominant color, so the source's edge
normalizer divides `0` by `255 * sqrt 3 * (colors.length - 1) = 0`. -/
def rawOneColor : RawResult :=
  ⟨[], [], [], [], some [⟨⟨10, 20, 30⟩, 1, 1⟩], webEmpty⟩

/-- The all-default (absent) caller weights. -/
def noUserWeights : UserWeights := ⟨none, none, none, none, none, none⟩

/-- C1 witness photo pool: one photo of the empty analysis at time 1. -/
def poolC1 : List EnhancedPhoto := [⟨⟨("p1"), 1, none⟩, mkAnalysis ratSqrt rawEmpty⟩]

/-- C1 witness options: limit 5, range [0,2], no quality floor, no filters. -/
def optsC1 : HighlightOptions := ⟨5, 0, 2, 0, [], noUserWeights⟩

/-- Empty frequency tables. -/
def freqsEmpty : LabelFrequencies := ⟨[], []⟩

/-- C2 counterexample input: one face whose box is the whole (normalized)
frame and one pure-white dominant color covering every pixel. -/
def ce2raw : RawResult :=
  ⟨[⟨[⟨0, 0⟩, ⟨1, 0⟩, ⟨1, 1⟩, ⟨0, 1⟩], .unknown, .unknown, .unknown, .unknown,
      .unknown, .unknown, 1⟩],
    [], [], [], some [⟨⟨255, 255, 255⟩, 0, 1⟩], webEmpty⟩

/-- C5 counterexample input: two faces, the first very likely blurred, the
second very unlikely blurred, and no color data. -/
def ce5raw : RawResult :=
  ⟨[⟨[], .unknown, .unknown, .unknown, .unknown, .veryLikely, .unknown, 1⟩,
    ⟨[], .unknown, .unknown, .unknown, .unknown, .veryUnlikely, .unknown, 1⟩],
    [], [], [], none, webEmpty⟩

/-- A dominant color used by the C9 counterexample. -/
def c9color : DomColor := ⟨⟨10, 20, 30⟩, 1, 1/2⟩

/-- The shared analysis of the C4 photos: one label, one web entity, one
dominant color, no faces or landmarks. -/
def analysisC4 : PhotoAnalysis :=
  { faces := []
    labels := [⟨("x"), 1, 1⟩]
    landmarks := []
    imageProperties := ⟨[⟨⟨10, 20, 30⟩, 1, 1⟩], 0, 0, 0⟩
    webDetection := ⟨[⟨some ("e1"), 1, none⟩], 0, 0⟩
    quality := ⟨1, 1, 1, 1⟩ }

/-- C4 failing input, group anchor: high quality, low final score. -/
def photoA : ScoredPhoto :=
  ⟨⟨("A"), 450000, none⟩, analysisC4, ⟨1, 0, 0, 0, 0, 0, 1/10⟩⟩

/-- C4 failing input, non-anchor group member with the best final score. -/
def photoB : ScoredPhoto :=
  ⟨⟨("B"), 449000, none⟩, analysisC4, ⟨1, 0, 0, 0, 0, 0, 9/10⟩⟩

/-- C4 options: limit 2 over the range [0, 1000000], no quality floor. -/
def optsC4 : HighlightOptions := ⟨2, 0, 1000000, 0, [], noUserWeights⟩

/-- Geographic distance stand-in for inputs without locations (never
consulted on them). -/
def geoZero : ℚ × ℚ → ℚ × ℚ → ℚ := fun _ _ => 0

/-- C10 witness photo. -/
def photoC10 : Photo := ⟨("p10"), 0, none⟩

/-- C10 witness analyzer: the provider call always fails. -/
def analyzeFail : Photo → Except String EnhancedPhoto :=
  fun _ => .error ("boom")

/-! ## Properties of the square-root stand-in -/

theorem countP_range_lt (m n : ℕ) :
    (List.range n).countP (fun k => decide (k < m)) = min m n := by
  induction n with
  | zero => simp
  | succ n ih =>
    rw [List.range_succ, List.countP_append, ih]
    by_cases h : n < m <;> simp [h] <;> omega

theorem natSqrtL_mono {m n : ℕ} (h : m ≤ n) : natSqrtL m ≤ natSqrtL n := by
  unfold natSqrtL
  calc (List.range m).countP (fun k => (k + 1) * (k + 1) ≤ m)
      ≤ (List.range m).countP (fun k => (k + 1) * (k + 1) ≤ n) := by
        apply List.countP_mono_left
        intro a _ ha
        simp only [decide_eq_true_eq] at *
        omega
    _ ≤ (List.range n).countP (fun k => (k + 1) * (k + 1) ≤ n) := by
        apply List.Sublist.countP_le
        exact (List.range_sublist).2 h

theorem natSqrtL_sq (d : ℕ) : natSqrtL (d * d) = d := by
  unfold natSqrtL
  have hcongr : (List.range (d * d)).countP (fun k => (k + 1) * (k + 1) ≤ d * d)
      = (List.range (d * d)).countP (fun k => decide (k < d)) := by
    apply List.countP_congr
    intro a _
    simp only [decide_eq_true_eq]
    constructor
    · intro h
      by_contra hc
      push_neg at hc
      have : d * d < (a + 1) * (a + 1) := by nlinarith
      omega
    · intro h
      nlinarith
  rw [hcongr, countP_range_lt]
  rcases Nat.eq_zero_or_pos d with h | h
  · simp [h]
  · have : d ≤ d * d := Nat.le_mul_of_pos_left d h
    omega

theorem ratSqrt_nonneg (q : ℚ) : 0 ≤ ratSqrt q := by
  unfold ratSqrt
  positivity

theorem ratSqrt_one_le {q : ℚ} (h : 1 ≤ q) : 1 ≤ ratSqrt q := by
  unfold ratSqrt
  have hden : (0 : ℚ) < (q.den : ℚ) := by exact_mod_cast q.pos
  rw [le_div_iff₀ hden, one_mul]
  have hnum : (q.den : ℤ) ≤ q.num := by
    have hq := Rat.num_div_den q
    rw [← hq, le_div_iff₀ (show (0:ℚ) < (q.den : ℚ) by exact_mod_cast q.pos)] at h
    have hqq : (q.den : ℚ) ≤ (q.num : ℚ) := by simpa using h
    exact_mod_cast hqq
  have h1 : q.den ≤ q.num.toNat := by omega
  have h2 : q.den * q.den ≤ q.num.toNat * q.den := Nat.mul_le_mul_right _ h1
  have h3 : q.den ≤ natSqrtL (q.num.toNat * q.den) := by
    have := natSqrtL_mono h2
    rwa [natSqrtL_sq] at this
  exact_mod_cast h3

theorem ratSqrt_zero : ratSqrt 0 = 0 := by
  unfold ratSqrt natSqrtL
  norm_num

theorem sqrtOK_ratSqrt : SqrtOK ratSqrt :=
  ⟨ratSqrt_nonneg, fun _ h => ratSqrt_one_le h, ratSqrt_zero⟩

/-! ## Generic list helpers -/

theorem foldl_add_init (l : List ℚ) (a : ℚ) :
    l.foldl (fun x y => x + y) a = a + l.sum := by
  induction l generalizing a with
  | nil => simp
  | cons x xs ih => simp [ih, add_assoc]

theorem qsum_eq_sum (l : List ℚ) : qsum l = l.sum := by
  simpa [qsum] using foldl_add_init l 0

theorem avg_bounds {l : List ℚ} {a b : ℚ} (hne : l ≠ [])
    (h : ∀ x ∈ l, a ≤ x ∧ x ≤ b) :
    a ≤ qsum l / (l.length : ℚ) ∧ qsum l / (l.length : ℚ) ≤ b := by
  have hlen : (0 : ℚ) < (l.length : ℚ) := by
    have := List.length_pos.2 hne
    exact_mod_cast this
  have hub : l.sum ≤ (l.length : ℚ) * b := by
    have := List.sum_le_card_nsmul l b (fun x hx => (h x hx).2)
    simpa [nsmul_eq_mul] using this
  have hlb : (l.length : ℚ) * a ≤ l.sum := by
    have := List.card_nsmul_le_sum l a (fun x hx => (h x hx).1)
    simpa [nsmul_eq_mul] using this
  rw [qsum_eq_sum]
  constructor
  · rw [le_div_iff₀ hlen]
    linarith
  · rw [div_le_iff₀ hlen]
    linarith

theorem foldl_add_map {α : Type} (f : α → ℚ) (l : List α) (a : ℚ) :
    l.foldl (fun acc c => acc + f c) a = a + (l.map f).sum := by
  induction l generalizing a with
  | nil => simp
  | cons x xs ih => simp [ih, add_assoc]

theorem foldl_pair_add {α : Type} (f g : α → ℚ) (l : List α) (a b : ℚ) :
    l.foldl (fun acc c => (acc.1 + f c, acc.2 + g c)) (a, b)
      = (a + (l.map f).sum, b + (l.map g).sum) := by
  induction l generalizing a b with
  | nil => simp
  | cons x xs ih => simp [ih, add_assoc]

theorem foldl_mem_interval {α : Type} {lo hi : ℚ} {l : List α} {a : ℚ}
    {step : ℚ → α → ℚ} (ha : lo ≤ a ∧ a ≤ hi)
    (hstep : ∀ m x, x ∈ l → lo ≤ m ∧ m ≤ hi → lo ≤ step m x ∧ step m x ≤ hi) :
    lo ≤ l.foldl step a ∧ l.foldl step a ≤ hi := by
  induction l generalizing a with
  | nil => simpa using ha
  | cons x xs ih =>
    simp only [List.foldl_cons]
    exact ih (hstep a x (by simp) ha)
      (fun m y hy hm => hstep m y (by simp [hy]) hm)

theorem foldl_max_mono_init {α : Type} (f : α → ℚ) (l : List α) {a b : ℚ}
    (h : a ≤ b) :
    l.foldl (fun m x => max m (f x)) a ≤ l.foldl (fun m x => max m (f x)) b := by
  induction l generalizing a b with
  | nil => simpa using h
  | cons x xs ih => exact ih (max_le_max_right _ h)

theorem foldl_min_le_foldl_max {α : Type} (f : α → ℚ) (l : List α) (a : ℚ) :
    l.foldl (fun m x => min m (f x)) a ≤ l.foldl (fun m x => max m (f x)) a := by
  induction l generalizing a with
  | nil => simp
  | cons x xs ih =>
    calc xs.foldl (fun m y => min m (f y)) (min a (f x))
        ≤ xs.foldl (fun m y => max m (f y)) (min a (f x)) := ih _
      _ ≤ xs.foldl (fun m y => max m (f y)) (max a (f x)) :=
          foldl_max_mono_init f xs (le_trans (min_le_left _ _) (le_max_left _ _))

/-- Bounding boxes produced by `convertBoundingPoly` have nonnegative width
and height. -/
theorem convertBoundingPoly_nonneg (poly : List Vertex) :
    0 ≤ (convertBoundingPoly poly).width ∧ 0 ≤ (convertBoundingPoly poly).height := by
  unfold convertBoundingPoly
  match poly with
  | [] => norm_num
  | v :: vs =>
    by_cases h : vs.length + 1 < 4
    · simp [h]
    · simp only [h, if_false]
      constructor
      · have := foldl_min_le_foldl_max (fun w : Vertex => w.x) vs v.x
        simpa using sub_nonneg.2 this
      · have := foldl_min_le_foldl_max (fun w : Vertex => w.y) vs v.y
        simpa using sub_nonneg.2 this

/-- `convertLikelihood` lands in `[0,1]`. -/
theorem convertLikelihood_mem (k : Likelihood) :
    0 ≤ convertLikelihood k ∧ convertLikelihood k ≤ 1 := by
  cases k <;> norm_num [convertLikelihood]

/-! ## Bounds on the quality evaluators -/

theorem adjContrastSum_nonneg {s : ℚ → ℚ} (hs : ∀ x, 0 ≤ s x) (l : List DomColor) :
    0 ≤ adjContrastSum s l := by
  induction l with
  | nil => simp [adjContrastSum]
  | cons c cs ih =>
    cases cs with
    | nil => simp [adjContrastSum]
    | cons c2 rest =>
      rw [adjContrastSum]
      exact add_nonneg (hs _) ih

theorem edgeEstimate_mem {s : ℚ → ℚ} (hs : SqrtOK s) (cs : List DomColor) :
    0 ≤ edgeEstimate s cs ∧ edgeEstimate s cs ≤ 1 := by
  refine ⟨?_, min_le_right _ _⟩
  apply le_min _ (by norm_num)
  match cs with
  | [] => simp [adjContrastSum]
  | [c] => simp [adjContrastSum]
  | c1 :: c2 :: rest =>
    apply div_nonneg (adjContrastSum_nonneg hs.nonneg _)
    have h3 : (1 : ℚ) ≤ s 3 := hs.one_le 3 (by norm_num)
    have hlen : (1 : ℚ) ≤ ((c1 :: c2 :: rest).length : ℚ) - 1 := by
      have : 2 ≤ (c1 :: c2 :: rest).length := by simp
      have h2 : (2 : ℚ) ≤ ((c1 :: c2 :: rest).length : ℚ) := by exact_mod_cast this
      linarith
    nlinarith

theorem getLastD_mem {l : List ℚ} (h : l ≠ []) (d : ℚ) : l.getLastD d ∈ l := by
  induction l with
  | nil => exact absurd rfl h
  | cons x xs ih =>
    cases xs with
    | nil => simp
    | cons y ys => simpa using Or.inr (ih (by simp))

theorem optSum_map {α : Type} (g : α → ℚ) (xs : List α) :
    optSum (xs.map (fun a => some (g a))) = some (qsum (xs.map g)) := by
  induction xs with
  | nil => simp [optSum, qsum]
  | cons x xs ih =>
    simp [optSum, ih, qsum_eq_sum]

theorem getLastD_map_some {α : Type} (g : α → ℚ) (xs : List α) (d : ℚ) :
    (xs.map (fun a => some (g a))).getLastD (some d) = some ((xs.map g).getLastD d) := by
  induction xs generalizing d with
  | nil => rfl
  | cons x xs ih =>
    simp only [List.map_cons, List.getLastD_cons]
    exact ih (g x)

/-- `ValidRaw` excludes exactly the division-by-zero spots of `evaluateBlur`:
on every valid input the division-guarded evaluator is finite and agrees
with the total-division embedding that the quality bounds are about. -/
theorem evaluateBlurFin_eq {s : ℚ → ℚ} (hs : SqrtOK s) (raw : RawResult)
    (hv : ValidRaw raw) :
    evaluateBlurFin s raw = some (evaluateBlur s raw) := by
  obtain ⟨fa, la, lma, oa, dc, web⟩ := raw
  rcases dc with _ | cs
  · have hcard : fa.length ≠ 1 := hv.2.2.2.2
    rcases fa with _ | ⟨f, fs⟩
    · simp [evaluateBlurFin, evaluateBlur]
    · rcases fs with _ | ⟨f2, fs'⟩
      · exact absurd rfl hcard
      · simp only [evaluateBlurFin, evaluateBlur, List.append_nil,
          ← List.map_dropLast, optSum_map, getLastD_map_some, List.length_map]
        split_ifs with h1 h2 h3
        · rfl
        · exfalso
          rw [List.length_cons, List.length_cons] at h3
          push_cast at h3
          have := Nat.cast_nonneg (α := ℚ) fs'.length
          linarith
        · rfl
        · exact absurd (by simp) h2
  · have hcs : ColorsOK cs ∧ cs.length ≠ 1 := hv.2.2.2.2
    have hs3 : (1 : ℚ) ≤ s 3 := hs.one_le 3 (by norm_num)
    have hden : 255 * s 3 * ((cs.length : ℚ) - 1) ≠ 0 :=
      mul_ne_zero (mul_ne_zero (by norm_num) (by linarith))
        (sub_ne_zero.2 (by exact_mod_cast hcs.2))
    rcases fa with _ | ⟨f, fs⟩
    · simp only [evaluateBlurFin, evaluateBlur, List.nil_append, if_neg hden]
      simp [optSum, qsum]
    · simp only [evaluateBlurFin, evaluateBlur, if_neg hden,
        List.dropLast_concat, List.getLastD_concat, optSum_map,
        List.length_append, List.length_map, List.length_cons, List.length_nil]
      split_ifs <;>
        first
          | rfl
          | omega
          | (exfalso; omega)
          | (exfalso
             rename_i hq
             push_cast at hq
             have hnn : (0 : ℚ) ≤ (fs.length : ℚ) := Nat.cast_nonneg _
             linarith)

/-- The blur score stays in `[0,1]` (in the exact-arithmetic embedding this
needs no side conditions: the `0/0` spots JS turns into NaN evaluate to 0
here and stay inside the interval). -/
theorem evaluateBlur_mem {s : ℚ → ℚ} (hs : SqrtOK s) (raw : RawResult) :
    0 ≤ evaluateBlur s raw ∧ evaluateBlur s raw ≤ 1 := by
  have hfm : ∀ x ∈ raw.faceAnns.map (fun f => 1 - convertLikelihood f.blurredLik),
      0 ≤ x ∧ x ≤ 1 := by
    intro x hx
    obtain ⟨f, _, rfl⟩ := List.mem_map.1 hx
    have := convertLikelihood_mem f.blurredLik
    constructor <;> linarith [this.1, this.2]
  rcases hdc : raw.domColors with _ | cs
  · rcases hfc : raw.faceAnns with _ | ⟨f, fs⟩
    · simp only [evaluateBlur, hdc, hfc]
      norm_num
    · simp only [evaluateBlur, hdc, List.append_nil]
      rw [hfc] at hfm ⊢
      have hlen : ¬((f :: fs).map (fun f => 1 - convertLikelihood f.blurredLik)).length = 0 := by
        simp
      rw [if_neg hlen, if_pos (by simp)]
      set l := (f :: fs).map (fun f => 1 - convertLikelihood f.blurredLik) with hl
      have hlast : 0 ≤ l.getLastD 0 ∧ l.getLastD 0 ≤ 1 :=
        hfm _ (getLastD_mem (by simp [hl]) 0)
      have havg : 0 ≤ qsum l.dropLast / ((l.length : ℚ) - 1)
          ∧ qsum l.dropLast / ((l.length : ℚ) - 1) ≤ 1 := by
        rcases hdl : l.dropLast with _ | ⟨y, ys⟩
        · have h1 : l.length = 1 := by
            have := List.length_dropLast l
            rw [hdl] at this
            simp only [List.length_nil] at this
            have h0 : l.length ≠ 0 := by simp [hl]
            omega
          rw [h1]
          norm_num [qsum]
        · have hnz : l.length - 1 ≠ 0 := by
            have := List.length_dropLast l
            rw [hdl] at this
            simp at this
            omega
          have hcast : ((l.length : ℚ) - 1) = ((l.dropLast.length : ℕ) : ℚ) := by
            rw [List.length_dropLast]
            have h0 : 1 ≤ l.length := by
              have hne : l.length ≠ 0 := by simp [hl]
              omega
            push_cast [Nat.cast_sub h0]
            ring
          rw [hcast, hdl]
          apply avg_bounds (by simp)
          intro x hx
          exact hfm x ((List.dropLast_sublist l).subset (hdl ▸ hx))
      constructor <;> nlinarith [havg.1, havg.2, hlast.1, hlast.2]
  · rcases hfc : raw.faceAnns with _ | ⟨f, fs⟩
    · simp only [evaluateBlur, hdc, hfc, List.map_nil, List.nil_append]
      have he := edgeEstimate_mem hs cs
      simp only [edgeEstimate] at he
      simp only [List.length_cons, List.length_nil]
      rw [if_neg (by simp), if_neg (by simp [hfc])]
      simp only [qsum, List.foldl_cons, List.foldl_nil, zero_add, Nat.cast_one, div_one]
      exact he
    · simp only [evaluateBlur, hdc]
      rw [hfc] at hfm ⊢
      rw [if_neg (by simp), if_pos (by simp)]
      rw [List.dropLast_concat, List.getLastD_concat]
      have he := edgeEstimate_mem hs cs
      simp only [edgeEstimate] at he
      have havg : 0 ≤ qsum ((f :: fs).map (fun f => 1 - convertLikelihood f.blurredLik))
            / ((((f :: fs).map (fun f => 1 - convertLikelihood f.blurredLik))
                ++ [min (adjContrastSum s cs / (255 * s 3 * ((cs.length : ℚ) - 1))) 1]).length - 1 : ℚ)
          ∧ qsum ((f :: fs).map (fun f => 1 - convertLikelihood f.blurredLik))
            / ((((f :: fs).map (fun f => 1 - convertLikelihood f.blurredLik))
                ++ [min (adjContrastSum s cs / (255 * s 3 * ((cs.length : ℚ) - 1))) 1]).length - 1 : ℚ) ≤ 1 := by
        have hlen : ((((f :: fs).map (fun f => 1 - convertLikelihood f.blurredLik))
            ++ [min (adjContrastSum s cs / (255 * s 3 * ((cs.length : ℚ) - 1))) 1]).length - 1 : ℚ)
            = (((f :: fs).map (fun f => 1 - convertLikelihood f.blurredLik)).length : ℚ) := by
          simp only [List.length_append, List.length_cons, List.length_nil]
          push_cast
          ring
        rw [hlen]
        exact avg_bounds (by simp) hfm
      constructor <;> nlinarith [havg.1, havg.2, he.1, he.2]

/-- The exposure score stays in `[0,1]` for valid color data. -/
theorem evaluateExposure_mem {raw : RawResult}
    (hc : ∀ cs, raw.domColors = some cs → ColorsOK cs) :
    0 ≤ evaluateExposure raw ∧ evaluateExposure raw ≤ 1 := by
  rcases hdc : raw.domColors with _ | cs
  · simp only [evaluateExposure, hdc]
    norm_num
  · have hcs := hc cs hdc
    simp only [evaluateExposure, hdc]
    have hfold := foldl_pair_add
      (fun c : DomColor => (c.color.red + c.color.green + c.color.blue) / (3 * 255) * c.pixelFraction)
      (fun c : DomColor => c.pixelFraction) cs 0 0
    rw [hfold]
    simp only [zero_add]
    set sw := (cs.map (fun c : DomColor => c.pixelFraction)).sum with hsw
    set sb := (cs.map (fun c : DomColor =>
      (c.color.red + c.color.green + c.color.blue) / (3 * 255) * c.pixelFraction)).sum with hsb
    have hb : ∀ c ∈ cs, 0 ≤ (c.color.red + c.color.green + c.color.blue) / (3 * 255) * c.pixelFraction
        ∧ (c.color.red + c.color.green + c.color.blue) / (3 * 255) * c.pixelFraction
          ≤ c.pixelFraction := by
      intro c hcmem
      obtain ⟨hr, hg, hbl, hp⟩ := hcs c hcmem
      constructor
      · apply mul_nonneg _ hp.1
        apply div_nonneg _ (by norm_num)
        linarith [hr.1, hg.1, hbl.1]
      · have hble : (c.color.red + c.color.green + c.color.blue) / (3 * 255) ≤ 1 := by
          rw [div_le_one (by norm_num)]
          linarith [hr.2, hg.2, hbl.2]
        nlinarith [hp.1]
    have hsb0 : 0 ≤ sb := by
      rw [hsb]
      apply List.sum_nonneg
      intro x hx
      obtain ⟨c, hcmem, rfl⟩ := List.mem_map.1 hx
      exact (hb c hcmem).1
    have hsbw : sb ≤ sw := by
      rw [hsb, hsw]
      apply List.sum_le_sum
      intro c hcmem
      exact (hb c hcmem).2
    by_cases hw : 0 < sw
    · rw [if_pos hw]
      have h01 : 0 ≤ sb / sw ∧ sb / sw ≤ 1 :=
        ⟨div_nonneg hsb0 hw.le, by rw [div_le_one hw]; exact hsbw⟩
      have habs : |sb / sw - 0.5| ≤ 0.5 := by
        rw [abs_le]
        constructor <;> [linarith [h01.1]; linarith [h01.2]]
      constructor <;> [linarith [habs]; nlinarith [abs_nonneg (sb / sw - (0.5 : ℚ))]]
    · rw [if_neg hw]
      norm_num

/-- The noise score stays in `[0,1]` unconditionally: the final
`max(0, min(1, ·))` clamp does all the work. -/
theorem evaluateNoise_mem (s : ℚ → ℚ) (raw : RawResult) :
    0 ≤ evaluateNoise s raw ∧ evaluateNoise s raw ≤ 1 := by
  rcases hdc : raw.domColors with _ | cs
  · simp only [evaluateNoise, hdc]
    norm_num
  · simp only [evaluateNoise, hdc]
    by_cases hl : cs.length < 2
    · rw [if_pos hl]
      norm_num
    · rw [if_neg hl]
      exact ⟨le_max_left _ _, max_le (by norm_num) (min_le_left _ _)⟩

theorem thirdsSubjectScore_mem (box : BoundingBox) :
    0 ≤ thirdsSubjectScore box ∧ thirdsSubjectScore box ≤ 1 := by
  simp only [thirdsSubjectScore]
  set dv := min |0.33 - (box.left + box.width / 2)| |0.67 - (box.left + box.width / 2)| with hdv
  set dh := min |0.33 - (box.top + box.height / 2)| |0.67 - (box.top + box.height / 2)| with hdh
  have hdv0 : 0 ≤ dv := le_min (abs_nonneg _) (abs_nonneg _)
  have hdh0 : 0 ≤ dh := le_min (abs_nonneg _) (abs_nonneg _)
  have hm1 : min ((dv + dh) / 2) 1 ≤ 1 := min_le_right _ _
  have hm0 : 0 ≤ min ((dv + dh) / 2) 1 := le_min (by positivity) (by norm_num)
  constructor <;> linarith

theorem subjectBoxes_nonneg (raw : RawResult) :
    ∀ b ∈ subjectBoxes raw, 0 ≤ b.width ∧ 0 ≤ b.height := by
  intro b hb
  simp only [subjectBoxes, List.mem_append, List.mem_map] at hb
  rcases hb with (⟨f, _, rfl⟩ | ⟨lm, _, rfl⟩) | ⟨o, _, rfl⟩ <;>
    exact convertBoundingPoly_nonneg _

theorem prominenceSubjectScore_mem {s : ℚ → ℚ} (hs : SqrtOK s) (box : BoundingBox)
    (hw : 0 ≤ box.width) (hh : 0 ≤ box.height) :
    0 ≤ prominenceSubjectScore s box ∧ prominenceSubjectScore s box ≤ 1 := by
  simp only [prominenceSubjectScore]
  have harea : 0 ≤ box.width * box.height := mul_nonneg hw hh
  have ha1 : min (box.width * box.height / (1 * 0.5)) 1 ≤ 1 := min_le_right _ _
  have ha0 : 0 ≤ min (box.width * box.height / (1 * 0.5)) 1 :=
    le_min (by positivity) (by norm_num)
  have hp1 : min (s ((box.left + box.width / 2 - 0.5) ^ 2 + (box.top + box.height / 2 - 0.5) ^ 2) / 0.5) 1 ≤ 1 :=
    min_le_right _ _
  have hp0 : 0 ≤ min (s ((box.left + box.width / 2 - 0.5) ^ 2 + (box.top + box.height / 2 - 0.5) ^ 2) / 0.5) 1 := by
    refine le_min ?_ (by norm_num)
    have := hs.nonneg ((box.left + box.width / 2 - 0.5) ^ 2 + (box.top + box.height / 2 - 0.5) ^ 2)
    positivity
  constructor <;> nlinarith [ha0, ha1, hp0, hp1]

theorem evaluateRuleOfThirds_mem {raw : RawResult} {t : ℚ}
    (h : evaluateRuleOfThirds raw = some t) : 0 ≤ t ∧ t ≤ 1 := by
  unfold evaluateRuleOfThirds at h
  by_cases h0 : (subjectBoxes raw).length = 0
  · rw [if_pos h0] at h
    exact absurd h (by simp)
  · rw [if_neg h0] at h
    obtain rfl : qsum ((subjectBoxes raw).map thirdsSubjectScore)
        / ((subjectBoxes raw).length : ℚ) = t := by
      injection h
    have hlen : ((subjectBoxes raw).map thirdsSubjectScore).length
        = (subjectBoxes raw).length := List.length_map _ _
    rw [← hlen]
    apply avg_bounds
    · simp only [ne_eq, List.map_eq_nil]
      exact fun hc => h0 (by simp [hc])
    · intro x hx
      obtain ⟨b, _, rfl⟩ := List.mem_map.1 hx
      exact thirdsSubjectScore_mem b

theorem evaluateSubjectProminence_mem {s : ℚ → ℚ} (hs : SqrtOK s)
    {raw : RawResult} {p : ℚ}
    (h : evaluateSubjectProminence s raw = some p) : 0 ≤ p ∧ p ≤ 1 := by
  unfold evaluateSubjectProminence at h
  by_cases h0 : (subjectBoxes raw).length = 0
  · rw [if_pos h0] at h
    exact absurd h (by simp)
  · rw [if_neg h0] at h
    obtain rfl : qsum ((subjectBoxes raw).map (prominenceSubjectScore s))
        / ((subjectBoxes raw).length : ℚ) = p := by
      injection h
    have hlen : ((subjectBoxes raw).map (prominenceSubjectScore s)).length
        = (subjectBoxes raw).length := List.length_map _ _
    rw [← hlen]
    apply avg_bounds
    · simp only [ne_eq, List.map_eq_nil]
      exact fun hc => h0 (by simp [hc])
    · intro x hx
      obtain ⟨b, hb, rfl⟩ := List.mem_map.1 hx
      obtain ⟨hw, hh⟩ := subjectBoxes_nonneg raw b hb
      exact prominenceSubjectScore_mem hs b hw hh

theorem foldl_quad_diag {α : Type} (f : α → ℚ) (l : List α) (a : ℚ) :
    l.foldl (fun acc c => (acc.1 + f c, acc.2.1 + f c, acc.2.2.1 + f c, acc.2.2.2 + f c))
      (a, a, a, a)
      = (l.foldl (fun x c => x + f c) a, l.foldl (fun x c => x + f c) a,
          l.foldl (fun x c => x + f c) a, l.foldl (fun x c => x + f c) a) := by
  induction l generalizing a with
  | nil => rfl
  | cons x xs ih => simpa using ih (a + f x)

/-- Because every color's weight is split evenly into all four quadrant
accumulators, the visual-balance sub-score is 1 whenever it is defined. -/
theorem evaluateVisualBalance_eq_one {raw : RawResult} {b : ℚ}
    (h : evaluateVisualBalance raw = some b) : b = 1 := by
  rw [evaluateVisualBalance] at h
  rcases hdc : raw.domColors with _ | cs
  · rw [hdc] at h
    simp at h
  · rw [hdc] at h
    simp only at h
    by_cases h0 : cs.length = 0
    · rw [if_pos h0] at h
      simp at h
    · rw [if_neg h0] at h
      rw [foldl_quad_diag
        (fun c : DomColor => c.pixelFraction * (c.color.red + c.color.green + c.color.blue) / (3 * 255) * 0.5)
        cs 0] at h
      simp only [sub_self, abs_zero] at h
      injection h with h
      norm_num at h
      linarith

theorem evaluateComposition_mem {s : ℚ → ℚ} (hs : SqrtOK s) (raw : RawResult) :
    0 ≤ evaluateComposition s raw ∧ evaluateComposition s raw ≤ 1 := by
  simp only [evaluateComposition]
  rcases h1 : evaluateRuleOfThirds raw with _ | t <;>
    rcases h2 : evaluateSubjectProminence s raw with _ | p <;>
    rcases h3 : evaluateVisualBalance raw with _ | b <;>
    simp only
  · norm_num
  · have hb := evaluateVisualBalance_eq_one h3
    have hb01 : 0 ≤ b ∧ b ≤ 1 := by rw [hb]; norm_num
    rw [if_pos (by norm_num)]
    push_cast
    constructor <;> nlinarith [hb01.1, hb01.2]
  · have hp := evaluateSubjectProminence_mem hs h2
    rw [if_pos (by norm_num)]
    push_cast
    constructor <;> nlinarith [hp.1, hp.2]
  · have hp := evaluateSubjectProminence_mem hs h2
    have hb := evaluateVisualBalance_eq_one h3
    have hb01 : 0 ≤ b ∧ b ≤ 1 := by rw [hb]; norm_num
    rw [if_pos (by norm_num)]
    push_cast
    constructor <;> nlinarith [hp.1, hp.2, hb01.1, hb01.2]
  · have ht := evaluateRuleOfThirds_mem h1
    rw [if_pos (by norm_num)]
    push_cast
    constructor <;> nlinarith [ht.1, ht.2]
  · have ht := evaluateRuleOfThirds_mem h1
    have hb := evaluateVisualBalance_eq_one h3
    have hb01 : 0 ≤ b ∧ b ≤ 1 := by rw [hb]; norm_num
    rw [if_pos (by norm_num)]
    push_cast
    constructor <;> nlinarith [ht.1, ht.2, hb01.1, hb01.2]
  · have ht := evaluateRuleOfThirds_mem h1
    have hp := evaluateSubjectProminence_mem hs h2
    rw [if_pos (by norm_num)]
    push_cast
    constructor <;> nlinarith [ht.1, ht.2, hp.1, hp.2]
  · have ht := evaluateRuleOfThirds_mem h1
    have hp := evaluateSubjectProminence_mem hs h2
    have hb := evaluateVisualBalance_eq_one h3
    have hb01 : 0 ≤ b ∧ b ≤ 1 := by rw [hb]; norm_num
    rw [if_pos (by norm_num)]
    push_cast
    constructor <;> nlinarith [ht.1, ht.2, hp.1, hp.2, hb01.1, hb01.2]

theorem mkQuality_mem {s : ℚ → ℚ} (hs : SqrtOK s) {raw : RawResult}
    (hc : ∀ cs, raw.domColors = some cs → ColorsOK cs) :
    (0 ≤ (mkQuality s raw).blurScore ∧ (mkQuality s raw).blurScore ≤ 1)
    ∧ (0 ≤ (mkQuality s raw).exposureScore ∧ (mkQuality s raw).exposureScore ≤ 1)
    ∧ (0 ≤ (mkQuality s raw).noiseScore ∧ (mkQuality s raw).noiseScore ≤ 1)
    ∧ (0 ≤ (mkQuality s raw).compositionScore ∧ (mkQuality s raw).compositionScore ≤ 1) :=
  ⟨evaluateBlur_mem hs raw, evaluateExposure_mem hc,
    evaluateNoise_mem s raw, evaluateComposition_mem hs raw⟩

theorem calculateQualityScore_mem {q : QualityMetrics}
    (h1 : 0 ≤ q.blurScore ∧ q.blurScore ≤ 1)
    (h2 : 0 ≤ q.exposureScore ∧ q.exposureScore ≤ 1)
    (h3 : 0 ≤ q.noiseScore ∧ q.noiseScore ≤ 1)
    (h4 : 0 ≤ q.compositionScore ∧ q.compositionScore ≤ 1) :
    0 ≤ calculateQualityScore q ∧ calculateQualityScore q ≤ 1 := by
  unfold calculateQualityScore
  constructor <;> nlinarith [h1.1, h1.2, h2.1, h2.2, h3.1, h3.2, h4.1, h4.2]

/-! ## Bounds on the interest and emotion scores -/

theorem qsum_map_le {α : Type} {l : List α} {f g : α → ℚ}
    (h : ∀ x ∈ l, f x ≤ g x) : qsum (l.map f) ≤ qsum (l.map g) := by
  rw [qsum_eq_sum, qsum_eq_sum]
  exact List.sum_le_sum h

theorem qsum_map_nonneg {α : Type} {l : List α} {f : α → ℚ}
    (h : ∀ x ∈ l, 0 ≤ f x) : 0 ≤ qsum (l.map f) := by
  rw [qsum_eq_sum]
  apply List.sum_nonneg
  intro x hx
  obtain ⟨a, ha, rfl⟩ := List.mem_map.1 hx
  exact h a ha

theorem qsum_map_mul_left {α : Type} (l : List α) (c : ℚ) (f : α → ℚ) :
    qsum (l.map (fun x => c * f x)) = c * qsum (l.map f) := by
  rw [qsum_eq_sum, qsum_eq_sum]
  induction l with
  | nil => simp
  | cons x xs ih => simp [ih]; ring

/-- The face-interest score lies in `[0, 6/5]` (it exceeds 1 for three or
more faces with top emotion and confidence, because of the multi-face
boost). -/
theorem calculateFaceInterestScore_mem {faces : List FaceAnalysis}
    (h : ValidFaces faces) :
    0 ≤ calculateFaceInterestScore faces ∧ calculateFaceInterestScore faces ≤ 6/5 := by
  simp only [calculateFaceInterestScore]
  by_cases h0 : faces.length = 0
  · rw [if_pos h0]
    norm_num
  · rw [if_neg h0]
    have hmem : ∀ x ∈ faces.map (fun face =>
        max face.emotions.joy
          (max face.emotions.surprise
            (max (face.emotions.sorrow * 0.5) (face.emotions.anger * 0.5))) * 0.6
        + face.confidence * (if face.blurred then 0.5 else 1) * 0.4),
        0 ≤ x ∧ x ≤ 1 := by
      intro x hx
      obtain ⟨f, hf, rfl⟩ := List.mem_map.1 hx
      obtain ⟨hj, hso, han, hsu, hc⟩ := h f hf
      have he1 : max f.emotions.joy
          (max f.emotions.surprise
            (max (f.emotions.sorrow * 0.5) (f.emotions.anger * 0.5))) ≤ 1 :=
        max_le hj.2 (max_le hsu.2 (max_le (by linarith [hso.2]) (by linarith [han.2])))
      have he0 : 0 ≤ max f.emotions.joy
          (max f.emotions.surprise
            (max (f.emotions.sorrow * 0.5) (f.emotions.anger * 0.5))) :=
        le_trans hj.1 (le_max_left _ _)
      have hq : 0 ≤ f.confidence * (if f.blurred then 0.5 else 1)
          ∧ f.confidence * (if f.blurred then 0.5 else 1) ≤ 1 := by
        split_ifs <;> constructor <;> nlinarith [hc.1, hc.2]
      constructor <;> nlinarith [he1, he0, hq.1, hq.2]
    have hne : faces.map (fun face =>
        max face.emotions.joy
          (max face.emotions.surprise
            (max (face.emotions.sorrow * 0.5) (face.emotions.anger * 0.5))) * 0.6
        + face.confidence * (if face.blurred then 0.5 else 1) * 0.4) ≠ [] := by
      simp only [ne_eq, List.map_eq_nil_iff]
      exact fun hc => h0 (by simp [hc])
    have havg := avg_bounds hne hmem
    have hfac0 : (0 : ℚ) ≤ min ((faces.length : ℚ) / 3) 1 :=
      le_min (by positivity) (by norm_num)
    have hfac1 : min ((faces.length : ℚ) / 3) 1 ≤ 1 := min_le_right _ _
    constructor <;> nlinarith [havg.1, havg.2, hfac0, hfac1]

theorem calculateLandmarkInterestScore_mem {lms : List Landmark}
    (h : ValidLandmarks lms) :
    0 ≤ calculateLandmarkInterestScore lms ∧ calculateLandmarkInterestScore lms ≤ 6/5 := by
  simp only [calculateLandmarkInterestScore]
  by_cases h0 : lms.length = 0
  · rw [if_pos h0]
    norm_num
  · rw [if_neg h0]
    apply foldl_mem_interval (by norm_num)
    intro m x hx hm
    obtain ⟨hs0, hs1⟩ := h x hx
    constructor
    · exact le_trans hm.1 (le_max_left _ _)
    · apply max_le hm.2
      split_ifs <;> nlinarith

theorem categoryScore_mem {labels : List Label} {kws : List String} {v : ℚ}
    (h : ValidLabels labels) (hcs : categoryScore labels kws = some v) :
    0 ≤ v ∧ v ≤ 1 := by
  unfold categoryScore at hcs
  split_ifs at hcs with hmatch
  · obtain rfl : labels.foldl
        (fun cur l => if labelMatchesCategory kws l then max cur l.score else cur) 0 = v := by
      injection hcs
    apply foldl_mem_interval (by norm_num)
    intro m x hx hm
    by_cases hmx : labelMatchesCategory kws x
    · rw [if_pos hmx]
      obtain ⟨hs0, hs1⟩ := h x hx
      exact ⟨le_trans hm.1 (le_max_left _ _), max_le hm.2 hs1⟩
    · rw [if_neg hmx]
      exact hm

theorem calculateLabelInterestScore_mem {labels : List Label}
    (h : ValidLabels labels) :
    0 ≤ calculateLabelInterestScore labels ∧ calculateLabelInterestScore labels ≤ 1 := by
  simp only [calculateLabelInterestScore]
  by_cases h0 : (interestingCategories.filterMap (categoryScore labels)).length = 0
  · rw [if_pos h0]
    norm_num
  · rw [if_neg h0]
    have hmem : ∀ x ∈ interestingCategories.filterMap (categoryScore labels),
        0 ≤ x ∧ x ≤ 1 := by
      intro x hx
      obtain ⟨kws, _, hk⟩ := List.mem_filterMap.1 hx
      exact categoryScore_mem h hk
    have hne : interestingCategories.filterMap (categoryScore labels) ≠ [] := by
      intro hc
      exact h0 (by simp [hc])
    have havg := avg_bounds hne hmem
    have hlen1 : (1 : ℚ) ≤ ((interestingCategories.filterMap (categoryScore labels)).length : ℚ) := by
      have : 1 ≤ (interestingCategories.filterMap (categoryScore labels)).length := by omega
      exact_mod_cast this
    have hbon0 : (0 : ℚ) ≤ min
        ((((interestingCategories.filterMap (categoryScore labels)).length : ℚ) - 1) * 0.1) 0.3 :=
      le_min (by nlinarith) (by norm_num)
    have hbon1 : min
        ((((interestingCategories.filterMap (categoryScore labels)).length : ℚ) - 1) * 0.1) 0.3
        ≤ 0.3 := min_le_right _ _
    constructor
    · apply le_min _ (by norm_num)
      linarith [havg.1]
    · exact min_le_right _ _

theorem calculateWebInterestScore_mem {web : WebSignals}
    (h : ValidEntities web.webEntities) :
    0 ≤ calculateWebInterestScore web ∧ calculateWebInterestScore web ≤ 1 := by
  simp only [calculateWebInterestScore]
  by_cases h0 : web.webEntities.length = 0
  · rw [if_pos h0]
    norm_num
  · rw [if_neg h0]
    constructor
    · apply le_min _ (by norm_num)
      apply div_nonneg _ (by norm_num)
      apply div_nonneg _ (by positivity)
      apply qsum_map_nonneg
      intro es hes
      obtain ⟨e, he, rfl⟩ := List.mem_map.1 hes
      have hs0 := (h e he).1
      dsimp only
      split_ifs <;> [nlinarith [hs0]; (rw [mul_one]; exact hs0)]
    · exact min_le_right _ _

theorem calculateInterestScore_mem {a : PhotoAnalysis}
    (hf : ValidFaces a.faces) (hlm : ValidLandmarks a.landmarks)
    (hlb : ValidLabels a.labels) (hw : ValidEntities a.webDetection.webEntities) :
    0 ≤ calculateInterestScore a ∧ calculateInterestScore a ≤ 28/25 := by
  unfold calculateInterestScore
  have h1 := calculateFaceInterestScore_mem hf
  have h2 := calculateLandmarkInterestScore_mem hlm
  have h3 := calculateLabelInterestScore_mem hlb
  have h4 := calculateWebInterestScore_mem hw
  constructor <;> nlinarith [h1.1, h1.2, h2.1, h2.2, h3.1, h3.2, h4.1, h4.2]

/-- The emotion score lies in `[-1/5, 1]`: the `(1 − negative)·0.2` term can
push it to −0.2 for confident faces that are both sad and angry. -/
theorem calculateEmotionScore_mem {faces : List FaceAnalysis}
    (h : ValidFaces faces) :
    -(1/5) ≤ calculateEmotionScore faces ∧ calculateEmotionScore faces ≤ 1 := by
  simp only [calculateEmotionScore, List.map_map, Function.comp_def]
  by_cases h0 : faces.length = 0
  · rw [if_pos h0]
    norm_num
  · rw [if_neg h0]
    have hC0 : 0 ≤ qsum (faces.map (fun f => f.confidence)) :=
      qsum_map_nonneg (fun f hf => (h f hf).2.2.2.2.1)
    have hP0 : 0 ≤ qsum (faces.map (fun f =>
        (f.emotions.joy + f.emotions.surprise * 0.7) * f.confidence)) := by
      apply qsum_map_nonneg
      intro f hf
      obtain ⟨hj, _, _, hsu, hc⟩ := h f hf
      nlinarith [hj.1, hsu.1, hc.1]
    have hP17 : qsum (faces.map (fun f =>
        (f.emotions.joy + f.emotions.surprise * 0.7) * f.confidence))
        ≤ 17/10 * qsum (faces.map (fun f => f.confidence)) := by
      rw [← qsum_map_mul_left]
      apply qsum_map_le
      intro f hf
      obtain ⟨hj, _, _, hsu, hc⟩ := h f hf
      nlinarith [hj.1, hj.2, hsu.1, hsu.2, hc.1]
    have hN0 : 0 ≤ qsum (faces.map (fun f =>
        (f.emotions.sorrow + f.emotions.anger) * f.confidence)) := by
      apply qsum_map_nonneg
      intro f hf
      obtain ⟨_, hso, han, _, hc⟩ := h f hf
      nlinarith [hso.1, han.1, hc.1]
    have hN2 : qsum (faces.map (fun f =>
        (f.emotions.sorrow + f.emotions.anger) * f.confidence))
        ≤ 2 * qsum (faces.map (fun f => f.confidence)) := by
      rw [← qsum_map_mul_left]
      apply qsum_map_le
      intro f hf
      obtain ⟨_, hso, han, _, hc⟩ := h f hf
      nlinarith [hso.1, hso.2, han.1, han.2, hc.1]
    by_cases hz : qsum (faces.map (fun f => f.confidence)) = 0
    · rw [if_pos hz]
      norm_num
    · rw [if_neg hz]
      have hCpos : 0 < qsum (faces.map (fun f => f.confidence)) :=
        lt_of_le_of_ne hC0 (Ne.symm hz)
      have hnp : 0 ≤ qsum (faces.map (fun f =>
            (f.emotions.joy + f.emotions.surprise * 0.7) * f.confidence))
            / qsum (faces.map (fun f => f.confidence)) :=
        div_nonneg hP0 hC0
      have hnn2 : qsum (faces.map (fun f =>
            (f.emotions.sorrow + f.emotions.anger) * f.confidence))
            / qsum (faces.map (fun f => f.confidence)) ≤ 2 := by
        rw [div_le_iff₀ hCpos]
        linarith
      have hnn0 : 0 ≤ qsum (faces.map (fun f =>
            (f.emotions.sorrow + f.emotions.anger) * f.confidence))
            / qsum (faces.map (fun f => f.confidence)) :=
        div_nonneg hN0 hC0
      constructor
      · apply le_min _ (by norm_num)
        nlinarith [hnp, hnn2]
      · exact min_le_right _ _

/-! ## Bounds on the uniqueness, relevance and temporal scores -/

theorem freqLookup_one_le (m : List (String × ℕ)) (k : String) :
    1 ≤ freqLookup m k := by
  unfold freqLookup
  cases hm : mapGet m k with
  | none => norm_num
  | some n =>
    dsimp only
    split_ifs <;> omega

theorem invSqrtFreq_mem {s : ℚ → ℚ} (hs : SqrtOK s) (m : List (String × ℕ))
    (k : String) :
    0 ≤ 1 / s ((freqLookup m k : ℕ) : ℚ) ∧ 1 / s ((freqLookup m k : ℕ) : ℚ) ≤ 1 := by
  have h1 : (1 : ℚ) ≤ s ((freqLookup m k : ℕ) : ℚ) := by
    apply hs.one_le
    exact_mod_cast freqLookup_one_le m k
  have hpos : (0 : ℚ) < s ((freqLookup m k : ℕ) : ℚ) := by linarith
  exact ⟨by positivity, by rw [div_le_one hpos]; exact h1⟩

theorem listPairs_mem {α : Type} {l : List α} {p : α × α}
    (h : p ∈ listPairs l) : p.1 ∈ l ∧ p.2 ∈ l := by
  induction l with
  | nil => simp [listPairs] at h
  | cons x xs ih =>
    simp only [listPairs, List.mem_append, List.mem_map] at h
    rcases h with ⟨y, hy, rfl⟩ | h
    · exact ⟨by simp, by simp [hy]⟩
    · obtain ⟨h1, h2⟩ := ih h
      exact ⟨by simp [h1], by simp [h2]⟩

theorem calculateLabelUniqueness_mem {s : ℚ → ℚ} (hs : SqrtOK s)
    (freqs : LabelFrequencies) {labels : List Label} (h : ValidLabels labels) :
    0 ≤ calculateLabelUniqueness s freqs labels
    ∧ calculateLabelUniqueness s freqs labels ≤ 1 := by
  simp only [calculateLabelUniqueness]
  by_cases h0 : labels.length = 0
  · rw [if_pos h0]
    norm_num
  · rw [if_neg h0]
    have hindm : ∀ x ∈ labels.map (fun l =>
        1 / s ((freqLookup freqs.individual l.description : ℕ) : ℚ) * l.score),
        0 ≤ x ∧ x ≤ 1 := by
      intro x hx
      obtain ⟨l, hl, rfl⟩ := List.mem_map.1 hx
      have hi := invSqrtFreq_mem hs freqs.individual l.description
      have hsl := h l hl
      constructor <;> nlinarith [hi.1, hi.2, hsl.1, hsl.2]
    have hne : labels.map (fun l =>
        1 / s ((freqLookup freqs.individual l.description : ℕ) : ℚ) * l.score) ≠ [] := by
      simp only [ne_eq, List.map_eq_nil_iff]
      exact fun hc => h0 (by simp [hc])
    have havgInd := avg_bounds hne hindm
    have hcombm : ∀ x ∈ (listPairs labels).map (fun pr =>
        1 / s ((freqLookup freqs.combinations
            (comboKey pr.1.description pr.2.description) : ℕ) : ℚ)
          * min pr.1.score pr.2.score),
        0 ≤ x ∧ x ≤ 1 := by
      intro x hx
      obtain ⟨pr, hpr, rfl⟩ := List.mem_map.1 hx
      obtain ⟨hm1, hm2⟩ := listPairs_mem hpr
      have hi := invSqrtFreq_mem hs freqs.combinations
        (comboKey pr.1.description pr.2.description)
      have hs1 := h pr.1 hm1
      have hs2 := h pr.2 hm2
      have hmin0 : 0 ≤ min pr.1.score pr.2.score := le_min hs1.1 hs2.1
      have hmin1 : min pr.1.score pr.2.score ≤ 1 := le_trans (min_le_left _ _) hs1.2
      constructor <;> nlinarith [hi.1, hi.2]
    have hcomb : 0 ≤ (if 0 < ((listPairs labels).map (fun pr =>
          1 / s ((freqLookup freqs.combinations
              (comboKey pr.1.description pr.2.description) : ℕ) : ℚ)
            * min pr.1.score pr.2.score)).length then
          qsum ((listPairs labels).map (fun pr =>
            1 / s ((freqLookup freqs.combinations
                (comboKey pr.1.description pr.2.description) : ℕ) : ℚ)
              * min pr.1.score pr.2.score))
            / (((listPairs labels).map (fun pr =>
              1 / s ((freqLookup freqs.combinations
                  (comboKey pr.1.description pr.2.description) : ℕ) : ℚ)
                * min pr.1.score pr.2.score)).length : ℚ)
        else 0)
        ∧ (if 0 < ((listPairs labels).map (fun pr =>
          1 / s ((freqLookup freqs.combinations
              (comboKey pr.1.description pr.2.description) : ℕ) : ℚ)
            * min pr.1.score pr.2.score)).length then
          qsum ((listPairs labels).map (fun pr =>
            1 / s ((freqLookup freqs.combinations
                (comboKey pr.1.description pr.2.description) : ℕ) : ℚ)
              * min pr.1.score pr.2.score))
            / (((listPairs labels).map (fun pr =>
              1 / s ((freqLookup freqs.combinations
                  (comboKey pr.1.description pr.2.description) : ℕ) : ℚ)
                * min pr.1.score pr.2.score)).length : ℚ)
        else 0) ≤ 1 := by
      split_ifs with hlen
      · apply avg_bounds _ hcombm
        intro hc
        rw [hc] at hlen
        simp at hlen
      · norm_num
    constructor <;> nlinarith [havgInd.1, havgInd.2, hcomb.1, hcomb.2]

theorem calculateVisualUniqueness_mem (web : WebSignals) :
    0 ≤ calculateVisualUniqueness web ∧ calculateVisualUniqueness web ≤ 1 := by
  simp only [calculateVisualUniqueness]
  by_cases h0 : web.similarImageCount = 0
  · rw [if_pos h0]
    norm_num
  · rw [if_neg h0]
    have hsim0 : (0 : ℚ) ≤ max 0 (1 - (web.similarImageCount : ℚ) / 10) := le_max_left _ _
    have hsim1 : max 0 (1 - (web.similarImageCount : ℚ) / 10) ≤ 1 := by
      apply max_le (by norm_num)
      have : (0 : ℚ) ≤ (web.similarImageCount : ℚ) / 10 := by positivity
      linarith
    have hpar : 0 ≤ (if web.partialMatchCount ≠ 0 then
          max 0 (1 - (web.partialMatchCount : ℚ) / 5) else 1)
        ∧ (if web.partialMatchCount ≠ 0 then
          max 0 (1 - (web.partialMatchCount : ℚ) / 5) else 1) ≤ 1 := by
      split_ifs
      · constructor
        · exact le_max_left _ _
        · apply max_le (by norm_num)
          have : (0 : ℚ) ≤ (web.partialMatchCount : ℚ) / 5 := by positivity
          linarith
      · norm_num
    constructor <;> nlinarith [hpar.1, hpar.2]

theorem poolTerm_mem {cnt N : ℕ} (hcnt : cnt ≤ N) (hN : 0 < N) {pf : ℚ}
    (hpf : 0 ≤ pf ∧ pf ≤ 1) :
    0 ≤ (1 - (cnt : ℚ) / (N : ℚ)) * pf ∧ (1 - (cnt : ℚ) / (N : ℚ)) * pf ≤ 1 := by
  have hNq : (0 : ℚ) < (N : ℚ) := by exact_mod_cast hN
  have hfr : (cnt : ℚ) / (N : ℚ) ≤ 1 := by
    rw [div_le_one hNq]
    exact_mod_cast hcnt
  have hfr0 : (0 : ℚ) ≤ (cnt : ℚ) / (N : ℚ) := by positivity
  constructor <;> nlinarith [hpf.1, hpf.2]

theorem calculateColorUniqueness_mem (s : ℚ → ℚ) {pool : List EnhancedPhoto}
    {properties : ImageProperties} (hpf : ValidFractions properties.dominantColors)
    (hpool : pool ≠ []) :
    0 ≤ calculateColorUniqueness s pool properties
    ∧ calculateColorUniqueness s pool properties ≤ 1 := by
  simp only [calculateColorUniqueness]
  by_cases h0 : properties.dominantColors.length = 0
  · rw [if_pos h0]
    norm_num
  · rw [if_neg h0]
    have hN : 0 < pool.length := List.length_pos.2 hpool
    have hfold : properties.dominantColors.foldl
        (fun acc color =>
          acc + (1 - ((pool.countP (fun otherPhoto =>
            otherPhoto.analysis.imageProperties.dominantColors.any (fun otherColor =>
              areColorsSimilar s color.color otherColor.color))) : ℚ)
            / (pool.length : ℚ)) * color.pixelFraction) 0
        = qsum (properties.dominantColors.map (fun color =>
          (1 - ((pool.countP (fun otherPhoto =>
            otherPhoto.analysis.imageProperties.dominantColors.any (fun otherColor =>
              areColorsSimilar s color.color otherColor.color))) : ℚ)
            / (pool.length : ℚ)) * color.pixelFraction)) := by
      rw [qsum, List.foldl_map]
    rw [hfold]
    have hmem : ∀ x ∈ properties.dominantColors.map (fun color =>
        (1 - ((pool.countP (fun otherPhoto =>
          otherPhoto.analysis.imageProperties.dominantColors.any (fun otherColor =>
            areColorsSimilar s color.color otherColor.color))) : ℚ)
          / (pool.length : ℚ)) * color.pixelFraction),
        0 ≤ x ∧ x ≤ 1 := by
      intro x hx
      obtain ⟨c, hc, rfl⟩ := List.mem_map.1 hx
      exact poolTerm_mem (List.countP_le_length _) hN (hpf c hc)
    have hne : properties.dominantColors.map (fun color =>
        (1 - ((pool.countP (fun otherPhoto =>
          otherPhoto.analysis.imageProperties.dominantColors.any (fun otherColor =>
            areColorsSimilar s color.color otherColor.color))) : ℚ)
          / (pool.length : ℚ)) * color.pixelFraction) ≠ [] := by
      simp only [ne_eq, List.map_eq_nil_iff]
      exact fun hc => h0 (by simp [hc])
    have := avg_bounds hne hmem
    rw [List.length_map] at this
    exact this

theorem calculateLayoutUniqueness_mem {pool : List EnhancedPhoto}
    (faces : List FaceAnalysis) (landmarks : List Landmark) (hpool : pool ≠ []) :
    0 ≤ calculateLayoutUniqueness pool faces landmarks
    ∧ calculateLayoutUniqueness pool faces landmarks ≤ 1 := by
  simp only [calculateLayoutUniqueness]
  by_cases h0 : (faces.map (fun f => f.boundingBox)
      ++ landmarks.map (fun l => l.boundingBox)).length = 0
  · rw [if_pos h0]
    norm_num
  · rw [if_neg h0]
    have hN : 0 < pool.length := List.length_pos.2 hpool
    have hNq : (0 : ℚ) < (pool.length : ℚ) := by exact_mod_cast hN
    have hcnt : (pool.countP fun otherPhoto =>
        decide (0.8 < calculateLayoutSimilarity
          (createLayoutFingerprint (faces.map (fun f => f.boundingBox)
            ++ landmarks.map (fun l => l.boundingBox)))
          (createLayoutFingerprint (getVisualElements otherPhoto.analysis))))
        ≤ pool.length := List.countP_le_length _
    have hfr : ((pool.countP fun otherPhoto =>
        decide (0.8 < calculateLayoutSimilarity
          (createLayoutFingerprint (faces.map (fun f => f.boundingBox)
            ++ landmarks.map (fun l => l.boundingBox)))
          (createLayoutFingerprint (getVisualElements otherPhoto.analysis)))) : ℚ)
        / (pool.length : ℚ) ≤ 1 := by
      rw [div_le_one hNq]
      exact_mod_cast hcnt
    have hfr0 : (0 : ℚ) ≤ ((pool.countP fun otherPhoto =>
        decide (0.8 < calculateLayoutSimilarity
          (createLayoutFingerprint (faces.map (fun f => f.boundingBox)
            ++ landmarks.map (fun l => l.boundingBox)))
          (createLayoutFingerprint (getVisualElements otherPhoto.analysis)))) : ℚ)
        / (pool.length : ℚ) := by positivity
    constructor <;> linarith

theorem calculateUniquenessScore_mem {s : ℚ → ℚ} (hs : SqrtOK s)
    {pool : List EnhancedPhoto} (freqs : LabelFrequencies) {p : EnhancedPhoto}
    (hlb : ValidLabels p.analysis.labels)
    (hfr : ValidFractions p.analysis.imageProperties.dominantColors)
    (hpool : pool ≠ []) :
    0 ≤ calculateUniquenessScore s pool freqs p
    ∧ calculateUniquenessScore s pool freqs p ≤ 1 := by
  simp only [calculateUniquenessScore, calculateCompositionUniqueness]
  have h1 := calculateLabelUniqueness_mem hs freqs hlb
  have h2 := calculateVisualUniqueness_mem p.analysis.webDetection
  have h3 := calculateColorUniqueness_mem s hfr hpool
  have h4 := calculateLayoutUniqueness_mem p.analysis.faces p.analysis.landmarks hpool
  constructor <;> nlinarith [h1.1, h1.2, h2.1, h2.2, h3.1, h3.2, h4.1, h4.2]

theorem calculateRelevanceScore_mem {labels : List Label}
    (h : ValidLabels labels) (prefs : List String) :
    0 ≤ calculateRelevanceScore labels prefs
    ∧ calculateRelevanceScore labels prefs ≤ 1 := by
  simp only [calculateRelevanceScore]
  by_cases h0 : prefs.length = 0
  · rw [if_pos h0]
    norm_num
  · rw [if_neg h0]
    by_cases h1 : (labels.filter (fun l =>
        prefs.any (fun ty => strIncludes l.description.toLower ty.toLower))).length = 0
    · rw [if_pos h1]
      norm_num
    · rw [if_neg h1]
      have hmem : ∀ x ∈ (labels.filter (fun l =>
          prefs.any (fun ty => strIncludes l.description.toLower ty.toLower))).map
            (fun l => l.score), 0 ≤ x ∧ x ≤ 1 := by
        intro x hx
        obtain ⟨l, hl, rfl⟩ := List.mem_map.1 hx
        exact h l (List.mem_of_mem_filter hl)
      have hne : (labels.filter (fun l =>
          prefs.any (fun ty => strIncludes l.description.toLower ty.toLower))).map
            (fun l => l.score) ≠ [] := by
        simp only [ne_eq, List.map_eq_nil_iff]
        exact fun hc => h1 (by simp [hc])
      have := avg_bounds hne hmem
      rw [List.length_map] at this
      exact this

/-- Unfolded form of the temporal score. -/
theorem calculateTemporalScore_eq (t start finish : ℚ) :
    calculateTemporalScore t start finish
      = 1 - |(0.5 : ℚ) - (t - start) / (finish - start)| := rfl

theorem calculateTemporalScore_mem {t start finish : ℚ} (h : start < finish)
    (h1 : start ≤ t) (h2 : t ≤ finish) :
    0 ≤ calculateTemporalScore t start finish
    ∧ calculateTemporalScore t start finish ≤ 1 := by
  rw [calculateTemporalScore_eq]
  have hd : (0 : ℚ) < finish - start := by linarith
  have hnp0 : 0 ≤ (t - start) / (finish - start) :=
    div_nonneg (by linarith) (by linarith)
  have hnp1 : (t - start) / (finish - start) ≤ 1 := by
    rw [div_le_one hd]
    linarith
  have habs : |(0.5 : ℚ) - (t - start) / (finish - start)| ≤ 0.5 := by
    rw [abs_le]
    constructor <;> norm_num <;> linarith
  have habs0 := abs_nonneg ((0.5 : ℚ) - (t - start) / (finish - start))
  constructor <;> linarith

/-! ## From raw validity to converted validity, and the C1 bound -/

theorem mkAnalysis_faces_valid (s : ℚ → ℚ) {raw : RawResult} (hraw : ValidRaw raw) :
    ValidFaces (mkAnalysis s raw).faces := by
  intro f hf
  simp only [mkAnalysis, List.mem_map] at hf
  obtain ⟨rf, hrf, rfl⟩ := hf
  refine ⟨convertLikelihood_mem _, convertLikelihood_mem _,
    convertLikelihood_mem _, convertLikelihood_mem _, hraw.1 rf hrf⟩

theorem mkAnalysis_labels_valid (s : ℚ → ℚ) {raw : RawResult} (hraw : ValidRaw raw) :
    ValidLabels (mkAnalysis s raw).labels := by
  intro l hl
  simp only [mkAnalysis, List.mem_map] at hl
  obtain ⟨rl, hrl, rfl⟩ := hl
  exact hraw.2.1 rl hrl

theorem mkAnalysis_landmarks_valid (s : ℚ → ℚ) {raw : RawResult} (hraw : ValidRaw raw) :
    ValidLandmarks (mkAnalysis s raw).landmarks := by
  intro l hl
  simp only [mkAnalysis, List.mem_map] at hl
  obtain ⟨rl, hrl, rfl⟩ := hl
  exact hraw.2.2.1 rl hrl

theorem mkAnalysis_entities_valid (s : ℚ → ℚ) {raw : RawResult} (hraw : ValidRaw raw) :
    ValidEntities (mkAnalysis s raw).webDetection.webEntities := by
  intro e he
  exact hraw.2.2.2.1 e he

theorem mkAnalysis_fractions_valid (s : ℚ → ℚ) {raw : RawResult} (hraw : ValidRaw raw) :
    ValidFractions (mkAnalysis s raw).imageProperties.dominantColors := by
  intro c hc
  have h5 := hraw.2.2.2.2
  simp only [mkAnalysis] at hc
  rcases hdc : raw.domColors with _ | cs
  · rw [hdc] at hc
    simp [processImageProperties] at hc
  · rw [hdc] at hc
    simp only [processImageProperties] at hc
    rw [hdc] at h5
    exact ((h5.1 c hc).2.2.2 : _)

theorem mkAnalysis_colorsOK {raw : RawResult} (hraw : ValidRaw raw) :
    ∀ cs, raw.domColors = some cs → ColorsOK cs := by
  intro cs hdc
  have h5 := hraw.2.2.2.2
  rw [hdc] at h5
  exact h5.1

/-- C1 (amended): for every valid annotation response — `ValidRaw` requires
provider scores in range and excludes the two inputs on which the source's
`evaluateBlur` computes `NaN` (exactly one face with no dominant-color
block, or exactly one dominant color; `evaluateBlurFin_eq` shows these are
the only exclusions, and on them the guarded evaluator returns `none`, so
no interval bound holds there) — the quality, uniqueness and relevance scores lie in
[0,1], and the temporal score lies in [0,1] whenever the range is
nondegenerate and contains the capture time.  But the interest score only
lies in [0, 28/25]: the face interest reaches 1.2 via the multiple-face
factor and the landmark interest reaches 1.2 via the location boost (label
and web interest are capped at 1), so with weights 0.35/0.25/0.25/0.15 the
total reaches 0.35·1.2 + 0.25·1.2 + 0.25 + 0.15 = 1.12.  The emotion score
lies in [−1/5, 1] (confident sad-and-angry faces drive it negative), and
the default-weight final score lies in [−3/100, 128/125] accordingly. -/
theorem C1_score_bounds (s : ℚ → ℚ) (hs : SqrtOK s) (pool : List EnhancedPhoto)
    (freqs : LabelFrequencies) (opts : HighlightOptions) (raw : RawResult)
    (photo : Photo) (hraw : ValidRaw raw)
    (hrange : opts.timeStart < opts.timeEnd)
    (ht1 : opts.timeStart ≤ photo.dateTime) (ht2 : photo.dateTime ≤ opts.timeEnd)
    (hpool : pool ≠ []) (hw : opts.weights = noUserWeights) :
    (0 ≤ (scorePhoto s pool freqs opts ⟨photo, mkAnalysis s raw⟩).scores.quality
      ∧ (scorePhoto s pool freqs opts ⟨photo, mkAnalysis s raw⟩).scores.quality ≤ 1)
    ∧ (0 ≤ (scorePhoto s pool freqs opts ⟨photo, mkAnalysis s raw⟩).scores.interest
      ∧ (scorePhoto s pool freqs opts ⟨photo, mkAnalysis s raw⟩).scores.interest ≤ 28/25)
    ∧ (-(1/5) ≤ (scorePhoto s pool freqs opts ⟨photo, mkAnalysis s raw⟩).scores.emotion
      ∧ (scorePhoto s pool freqs opts ⟨photo, mkAnalysis s raw⟩).scores.emotion ≤ 1)
    ∧ (0 ≤ (scorePhoto s pool freqs opts ⟨photo, mkAnalysis s raw⟩).scores.uniqueness
      ∧ (scorePhoto s pool freqs opts ⟨photo, mkAnalysis s raw⟩).scores.uniqueness ≤ 1)
    ∧ (0 ≤ (scorePhoto s pool freqs opts ⟨photo, mkAnalysis s raw⟩).scores.relevance
      ∧ (scorePhoto s pool freqs opts ⟨photo, mkAnalysis s raw⟩).scores.relevance ≤ 1)
    ∧ (0 ≤ (scorePhoto s pool freqs opts ⟨photo, mkAnalysis s raw⟩).scores.temporal
      ∧ (scorePhoto s pool freqs opts ⟨photo, mkAnalysis s raw⟩).scores.temporal ≤ 1)
    ∧ (-(3/100) ≤ (scorePhoto s pool freqs opts ⟨photo, mkAnalysis s raw⟩).scores.final
      ∧ (scorePhoto s pool freqs opts ⟨photo, mkAnalysis s raw⟩).scores.final ≤ 128/125) := by
  have hq : (mkAnalysis s raw).quality = mkQuality s raw := rfl
  have hqm := mkQuality_mem hs (mkAnalysis_colorsOK hraw)
  have hquality := calculateQualityScore_mem hqm.1 hqm.2.1 hqm.2.2.1 hqm.2.2.2
  have hinterest := calculateInterestScore_mem (mkAnalysis_faces_valid s hraw)
    (mkAnalysis_landmarks_valid s hraw) (mkAnalysis_labels_valid s hraw)
    (mkAnalysis_entities_valid s hraw)
  have hemotion := calculateEmotionScore_mem (mkAnalysis_faces_valid s hraw)
  have huniq := calculateUniquenessScore_mem hs freqs
    (mkAnalysis_labels_valid s hraw) (mkAnalysis_fractions_valid s hraw) hpool
    (p := ⟨photo, mkAnalysis s raw⟩)
  have hrel := calculateRelevanceScore_mem (mkAnalysis_labels_valid s hraw)
    opts.preferredTypes
  have htemp := calculateTemporalScore_mem hrange ht1 ht2
  simp only [scorePhoto, hq]
  rw [hw]
  simp only [mergeWeights, noUserWeights, defaultWeights, Option.getD_none]
  refine ⟨⟨hquality.1, hquality.2⟩, ⟨hinterest.1, hinterest.2⟩,
    ⟨hemotion.1, hemotion.2⟩, ⟨huniq.1, huniq.2⟩, ⟨hrel.1, hrel.2⟩,
    ⟨htemp.1, htemp.2⟩, ?_, ?_⟩ <;>
    nlinarith [hquality.1, hquality.2, hinterest.1, hinterest.2, hemotion.1,
      hemotion.2, huniq.1, huniq.2, hrel.1, hrel.2, htemp.1, htemp.2]

/-! ## Claim C3: shape of the temporal score -/

theorem abs_half : |(1 : ℚ)/2| = 1/2 := abs_of_nonneg (by norm_num)

/-- C3 counterexample: the claim asserts a photo captured exactly at
`timeRange.start` scores temporal 0, but the code's
`1 − |0.5 − normalizedPosition|` evaluates to 1/2 there (range [0,2],
photo at 0). -/
theorem C3_counterexample :
    calculateTemporalScore 0 0 2 = 1/2 ∧ ¬ calculateTemporalScore 0 0 2 = 0 := by
  norm_num [calculateTemporalScore_eq, abs_half]

/-- C3 (amended): for `start < finish` the temporal score equals
`1 − |0.5 − normalizedPosition|`; it is 1 exactly at the midpoint, increases
monotonically on the first half, decreases monotonically on the second half,
and equals 1/2 (not 0) at `start` and at `finish`. -/
theorem C3_temporal_shape (t1 t2 start finish : ℚ) (h : start < finish) :
    calculateTemporalScore ((start + finish) / 2) start finish = 1
    ∧ calculateTemporalScore start start finish = 1/2
    ∧ calculateTemporalScore finish start finish = 1/2
    ∧ (start ≤ t1 → t1 ≤ t2 → t2 ≤ (start + finish) / 2 →
        calculateTemporalScore t1 start finish ≤ calculateTemporalScore t2 start finish)
    ∧ ((start + finish) / 2 ≤ t1 → t1 ≤ t2 → t2 ≤ finish →
        calculateTemporalScore t2 start finish ≤ calculateTemporalScore t1 start finish) := by
  have hd : (0 : ℚ) < finish - start := by linarith
  simp only [calculateTemporalScore_eq]
  refine ⟨?_, ?_, ?_, ?_, ?_⟩
  · have hmid : ((start + finish) / 2 - start) / (finish - start) = 1/2 := by
      rw [div_eq_iff hd.ne']
      ring
    rw [hmid]
    norm_num
  · rw [sub_self, zero_div]
    norm_num [abs_half]
  · rw [div_self hd.ne']
    norm_num [abs_half]
  · intro h1 h12 h2
    have ha12 : (t1 - start) / (finish - start) ≤ (t2 - start) / (finish - start) := by
      rw [div_le_div_iff_of_pos_right hd]
      linarith
    have ha2 : (t2 - start) / (finish - start) ≤ 1/2 := by
      rw [div_le_iff₀ hd]
      linarith
    have e1 : |(0.5 : ℚ) - (t1 - start) / (finish - start)|
        = 0.5 - (t1 - start) / (finish - start) := abs_of_nonneg (by norm_num; linarith)
    have e2 : |(0.5 : ℚ) - (t2 - start) / (finish - start)|
        = 0.5 - (t2 - start) / (finish - start) := abs_of_nonneg (by norm_num; linarith)
    rw [e1, e2]
    linarith
  · intro h1 h12 h2
    have ha12 : (t1 - start) / (finish - start) ≤ (t2 - start) / (finish - start) := by
      rw [div_le_div_iff_of_pos_right hd]
      linarith
    have ha1 : 1/2 ≤ (t1 - start) / (finish - start) := by
      rw [le_div_iff₀ hd]
      linarith
    have e1 : |(0.5 : ℚ) - (t1 - start) / (finish - start)|
        = -(0.5 - (t1 - start) / (finish - start)) := abs_of_nonpos (by norm_num; linarith)
    have e2 : |(0.5 : ℚ) - (t2 - start) / (finish - start)|
        = -(0.5 - (t2 - start) / (finish - start)) := abs_of_nonpos (by norm_num; linarith)
    rw [e1, e2]
    linarith

/-- C3 witness: with range [0,2] the midpoint photo scores 1 and the photo
at the start scores 1/2. -/
theorem C3_witness :
    calculateTemporalScore 1 0 2 = 1 ∧ calculateTemporalScore 0 0 2 = 1/2 := by
  have h := C3_temporal_shape 0 1 0 2 (by norm_num)
  refine ⟨?_, h.2.1⟩
  have h1 := h.1
  norm_num at h1
  exact h1

/-! ## Claim C6: zero-length time range -/

/-- C6: with a zero-length `timeRange` the temporal computation divides by
zero — the photo at `start` produces `0/0` (`NaN`) and any other photo
`±Infinity`; no photo is treated as having normalized position 0.5.  `none`
is the embedding's stand-in for those non-finite results. -/
theorem C6_zero_range_undefined :
    calculateTemporalScoreFin 0 0 0 = none ∧ calculateTemporalScoreFin 5 0 0 = none := by
  constructor <;> simp [calculateTemporalScoreFin]

/-! ## Claim C7: the selection never exceeds the limit -/

/-- C7: `selectHighlights` returns at most `options.limit` photos, for every
pool, frequency table and option set. -/
theorem C7_limit_bound (s : ℚ → ℚ) (geo : ℚ × ℚ → ℚ × ℚ → ℚ)
    (photos : List EnhancedPhoto) (freqs : LabelFrequencies)
    (opts : HighlightOptions) :
    (selectHighlights s geo photos freqs opts).length ≤ opts.limit := by
  unfold selectHighlights selectDiverseHighlights
  simp only [List.length_take]
  omega

/-! ## Claim C8: selection mutates nothing and is idempotent -/

/-- C8: a `selectHighlights` pass leaves the selector state (pool and both
frequency tables) unchanged, and a second pass with the same options on the
resulting state returns the identical ordered list. -/
theorem C8_select_idempotent (s : ℚ → ℚ) (geo : ℚ × ℚ → ℚ × ℚ → ℚ)
    (st : SelectorState) (opts : HighlightOptions) :
    (selectHighlightsRun s geo st opts).2 = st
    ∧ (selectHighlightsRun s geo (selectHighlightsRun s geo st opts).2 opts).1
      = (selectHighlightsRun s geo st opts).1 :=
  ⟨rfl, rfl⟩

/-! ## Claim C10: a failed analysis leaves the state untouched -/

/-- C10: if the provider call fails on a photo, `addPhotos` records the
(photo, error) pair in the failed list, changes neither the pool nor the
frequency tables for that photo, and goes on to process the rest of the
batch from the unchanged state. -/
theorem C10_failed_photo_isolated (analyze : Photo → Except String EnhancedPhoto)
    (st : SelectorState) (results : BatchResult) (photo : Photo)
    (rest : List Photo) (e : String) (h : analyze photo = .error e) :
    addPhotosGo analyze st results (photo :: rest)
      = addPhotosGo analyze st ⟨results.success, results.failed ++ [(photo, e)]⟩ rest
    ∧ (addPhotos analyze st [photo]).1 = st
    ∧ (addPhotos analyze st [photo]).2.failed = [(photo, e)] := by
  refine ⟨?_, ?_, ?_⟩ <;> simp [addPhotos, addPhotosGo, h]

/-- C10 witness: an always-failing analyzer on a one-photo batch. -/
theorem C10_witness :
    addPhotosGo analyzeFail ⟨[], freqsEmpty⟩ ⟨[], []⟩ (photoC10 :: [])
      = addPhotosGo analyzeFail ⟨[], freqsEmpty⟩ ⟨[], [(photoC10, ("boom"))]⟩ []
    ∧ (addPhotos analyzeFail ⟨[], freqsEmpty⟩ [photoC10]).1 = ⟨[], freqsEmpty⟩
    ∧ (addPhotos analyzeFail ⟨[], freqsEmpty⟩ [photoC10]).2.failed
      = [(photoC10, ("boom"))] :=
  C10_failed_photo_isolated analyzeFail ⟨[], freqsEmpty⟩ ⟨[], []⟩ photoC10 [] ("boom") rfl

/-! ## Claim C2: composition is a weighted blend over the count, not an
arithmetic average -/

/-- C2 (amended): each sub-score is null exactly when its annotations are
absent (rule-of-thirds and prominence share the subject list, balance needs
a nonempty color list); the composition score is the weighted sum
`0.4·thirds + 0.3·prominence + 0.3·balance` restricted to the non-null
sub-scores, divided by their count — not their arithmetic average — and
defaults to 0.5 when all are null.  In particular three equal sub-scores `v`
yield `v/3`, not `v`. -/
theorem C2_composition_blend (s : ℚ → ℚ) (raw : RawResult) :
    (evaluateRuleOfThirds raw = none ↔ subjectBoxes raw = [])
    ∧ (evaluateSubjectProminence s raw = none ↔ subjectBoxes raw = [])
    ∧ (evaluateVisualBalance raw = none
        ↔ (raw.domColors = none ∨ raw.domColors = some []))
    ∧ (∀ t p b, evaluateRuleOfThirds raw = some t →
        evaluateSubjectProminence s raw = some p →
        evaluateVisualBalance raw = some b →
        evaluateComposition s raw = (t * 0.4 + p * 0.3 + b * 0.3) / 3)
    ∧ (∀ t p, evaluateRuleOfThirds raw = some t →
        evaluateSubjectProminence s raw = some p →
        evaluateVisualBalance raw = none →
        evaluateComposition s raw = (t * 0.4 + p * 0.3) / 2)
    ∧ (∀ b, evaluateRuleOfThirds raw = none →
        evaluateVisualBalance raw = some b →
        evaluateComposition s raw = b * 0.3 / 1)
    ∧ (evaluateRuleOfThirds raw = none → evaluateVisualBalance raw = none →
        evaluateComposition s raw = 0.5) := by
  have hiff1 : evaluateRuleOfThirds raw = none ↔ subjectBoxes raw = [] := by
    unfold evaluateRuleOfThirds
    by_cases h : (subjectBoxes raw).length = 0
    · simp [h, List.length_eq_zero.1 h]
    · have h' : subjectBoxes raw ≠ [] := by simpa [List.length_eq_zero] using h
      simp [h, h']
  have hiff2 : evaluateSubjectProminence s raw = none ↔ subjectBoxes raw = [] := by
    unfold evaluateSubjectProminence
    by_cases h : (subjectBoxes raw).length = 0
    · simp [h, List.length_eq_zero.1 h]
    · have h' : subjectBoxes raw ≠ [] := by simpa [List.length_eq_zero] using h
      simp [h, h']
  have hiff3 : evaluateVisualBalance raw = none
      ↔ (raw.domColors = none ∨ raw.domColors = some []) := by
    unfold evaluateVisualBalance
    match hc : raw.domColors with
    | none => simp
    | some cs =>
      by_cases h : cs.length = 0
      · simp [h, List.length_eq_zero.1 h]
      · have h' : cs ≠ [] := by simpa [List.length_eq_zero] using h
        simp [h, h']
  refine ⟨hiff1, hiff2, hiff3, ?_, ?_, ?_, ?_⟩
  · intro t p b h1 h2 h3
    unfold evaluateComposition
    rw [h1, h2, h3]
    norm_num
  · intro t p h1 h2 h3
    unfold evaluateComposition
    rw [h1, h2, h3]
    norm_num
  · intro b h1 h2
    have h2p : evaluateSubjectProminence s raw = none := hiff2.2 (hiff1.1 h1)
    unfold evaluateComposition
    rw [h1, h2p, h2]
    norm_num
  · intro h1 h2
    have h2p : evaluateSubjectProminence s raw = none := hiff2.2 (hiff1.1 h1)
    unfold evaluateComposition
    rw [h1, h2p, h2]
    norm_num

/-! ## Claim C5: the blur blend misuses the last face score as the edge
term when color data is missing -/

/-- C5 (amended): with faces and a color list present (of length other than
one, where IEEE evaluation would be NaN) the blur score is
`0.7·(average not-blurred over all faces) + 0.3·(edge estimate)` as claimed;
with at least two faces and no color data the code instead blends
`0.7·(average over all but the last face)` with `0.3·(last face's score)`,
treating the last face score as the edge term; with no faces the score is
the edge estimate alone, and 0.5 when neither signal exists. -/
theorem C5_blur_cases (s : ℚ → ℚ) (raw : RawResult) :
    (∀ cs, raw.domColors = some cs → cs.length ≠ 1 → 0 < raw.faceAnns.length →
        evaluateBlur s raw
          = qsum (faceNotBlurred raw) / (raw.faceAnns.length : ℚ) * 0.7
            + edgeEstimate s cs * 0.3)
    ∧ (raw.domColors = none → 2 ≤ raw.faceAnns.length →
        evaluateBlur s raw
          = qsum (faceNotBlurred raw).dropLast / ((raw.faceAnns.length : ℚ) - 1) * 0.7
            + (faceNotBlurred raw).getLastD 0 * 0.3)
    ∧ (∀ cs, raw.domColors = some cs → raw.faceAnns.length = 0 →
        evaluateBlur s raw = edgeEstimate s cs)
    ∧ (raw.domColors = none → raw.faceAnns.length = 0 →
        evaluateBlur s raw = 0.5) := by
  refine ⟨?_, ?_, ?_, ?_⟩
  · intro cs hc _ hface
    simp only [evaluateBlur, hc]
    split_ifs with h1
    · exact absurd h1 (by simp)
    · rw [List.dropLast_concat, List.getLastD_concat]
      simp only [faceNotBlurred, edgeEstimate, List.length_append,
        List.length_map, List.length_cons, List.length_nil]
      push_cast
      ring_nf
  · intro hc hface
    simp only [evaluateBlur, hc, List.append_nil]
    split_ifs with h1 h2
    · exfalso
      revert h1
      simp only [List.length_map]
      omega
    · simp only [faceNotBlurred, List.length_map]
    · exact absurd (by omega : 0 < raw.faceAnns.length) h2
  · intro cs hc hface
    have he : raw.faceAnns = [] := List.length_eq_zero.1 hface
    simp [evaluateBlur, hc, he, qsum, edgeEstimate]
  · intro hc hface
    have he : raw.faceAnns = [] := List.length_eq_zero.1 hface
    simp [evaluateBlur, hc, he]

/-! ## Claim C9: self-similarity -/

/-- A split never produces the empty list of pieces. -/
theorem splitChars_ne_nil (sep : Char) (l : List Char) : splitChars sep l ≠ [] := by
  match l with
  | [] => simp [splitChars]
  | c :: cs =>
    unfold splitChars
    by_cases h : c == sep
    · simp [h]
    · simp only [h, Bool.false_eq_true, if_false]
      match hs : splitChars sep cs with
      | [] => simp
      | x :: xs => simp

/-- C9 (amended): a single dominant color of pixel fraction 1 compared
against itself has color similarity 1 (the general sum-to-1 reflexivity is
false, see the counterexample), and any layout fingerprint compared against
itself has layout similarity 1. -/
theorem C9_self_similarity (s : ℚ → ℚ) (hs0 : s 0 = 0) (c : DomColor)
    (hpf : c.pixelFraction = 1) (fp : String) :
    calculateColorSimilarity s [c] [c] = 1 ∧ calculateLayoutSimilarity fp fp = 1 := by
  have hne : (jsSplitPipe fp).length ≠ 0 := by
    simp only [jsSplitPipe, List.length_map, ne_eq, List.length_eq_zero]
    exact splitChars_ne_nil ('|') fp.toList
  constructor
  · have h0 : rgbGap2 c.color c.color = 0 := by
      simp [rgbGap2]
    simp [calculateColorSimilarity, h0, hs0, hpf]
  · unfold calculateLayoutSimilarity
    have hfilter : ((jsSplitPipe fp).filter
        (fun e => (jsSplitPipe fp).contains e)) = jsSplitPipe fp := by
      apply List.filter_eq_self.mpr
      intro a ha
      simpa using ha
    simp only [hne, ite_false, or_self, if_neg hne, hfilter, max_self]
    rw [div_self]
    exact_mod_cast hne

/-! ## Concrete evaluations.  The rational-arithmetic primitives of the
library are `@[irreducible]` for elaboration-performance reasons; the kernel
ignores reducibility, so re-marking them locally lets `decide` evaluate the
embedded programs on concrete inputs. -/

section ConcreteEvaluation

attribute [local semireducible] Rat.inv Rat.add Rat.mul Rat.sub Rat.ofScientific

/-- C9 counterexample: a two-element color list (the same color twice, pixel
fractions 1/2 + 1/2 = 1) compared against itself scores 1/4, not 1 — the
cross-pair weighting divides by the number of pairs. -/
theorem C9_counterexample :
    c9color.pixelFraction + c9color.pixelFraction = 1
    ∧ calculateColorSimilarity ratSqrt [c9color, c9color] [c9color, c9color] = 1/4
    ∧ ¬ calculateColorSimilarity ratSqrt [c9color, c9color] [c9color, c9color] = 1 := by
  refine ⟨?_, ?_, ?_⟩ <;> decide

/-- C9 witness: a singleton color list with pixel fraction 1 is
self-similar with score 1, and a concrete fingerprint is self-similar with
score 1. -/
theorem C9_witness :
    calculateColorSimilarity ratSqrt [⟨⟨5, 6, 7⟩, 1, 1⟩] [⟨⟨5, 6, 7⟩, 1, 1⟩] = 1
    ∧ calculateLayoutSimilarity ("0,0,1,1") ("0,0,1,1") = 1 :=
  C9_self_similarity ratSqrt ratSqrt_zero ⟨⟨5, 6, 7⟩, 1, 1⟩ rfl ("0,0,1,1")

/-- C2 counterexample: all three sub-scores are present (83/100, 1, 1), yet
the composition score is (0.4·83/100 + 0.3 + 0.3)/3 = 233/750, not their
arithmetic average (83/100 + 1 + 1)/3. -/
theorem C2_counterexample :
    evaluateRuleOfThirds ce2raw = some (83/100)
    ∧ evaluateSubjectProminence ratSqrt ce2raw = some 1
    ∧ evaluateVisualBalance ce2raw = some 1
    ∧ evaluateComposition ratSqrt ce2raw = 233/750
    ∧ ¬ evaluateComposition ratSqrt ce2raw = (83/100 + 1 + 1) / 3 := by
  refine ⟨?_, ?_, ?_, ?_, ?_⟩ <;> decide

/-- C2 witness: the amended blend formula applied to the concrete input. -/
theorem C2_witness :
    evaluateComposition ratSqrt ce2raw = ((83/100) * 0.4 + 1 * 0.3 + 1 * 0.3) / 3 :=
  (C2_composition_blend ratSqrt ce2raw).2.2.2.1 (83/100) 1 1
    (by decide) (by decide) (by decide)

/-- C5 counterexample: two faces (blurred-likelihoods 1 and 0) and no color
data.  The code returns 0.3 (it averages only the first face and treats the
second face's score as the edge term), while the claimed formula gives
0.7·((0+1)/2) = 0.35. -/
theorem C5_counterexample :
    evaluateBlur ratSqrt ce5raw = 3/10
    ∧ claimedBlur ratSqrt ce5raw = 7/20
    ∧ ¬ evaluateBlur ratSqrt ce5raw = claimedBlur ratSqrt ce5raw := by
  refine ⟨?_, ?_, ?_⟩ <;> decide

/-- C5 witness: the amended no-color-data clause applied to the concrete
input. -/
theorem C5_witness :
    evaluateBlur ratSqrt ce5raw
      = qsum (faceNotBlurred ce5raw).dropLast / ((ce5raw.faceAnns.length : ℚ) - 1) * 0.7
        + (faceNotBlurred ce5raw).getLastD 0 * 0.3 :=
  (C5_blur_cases ratSqrt ce5raw).2.1 rfl (by decide)

/-- C4: photo B (the best-scoring, non-anchor member of the group anchored
at photo A) is accepted in the bucket fill, but only B's own id — not the
group id A — is marked used, so the backfill still sees the whole group and
selects B a second time: the final selection is [B, B]. -/
theorem C4_group_not_marked_used :
    groupSimilarPhotos ratSqrt geoZero [photoA, photoB] = [(("A"), [photoA, photoB])]
    ∧ selectDiverseHighlights ratSqrt geoZero
        (groupSimilarPhotos ratSqrt geoZero [photoA, photoB]) optsC4
      = [photoB, photoB] := by
  refine ⟨?_, ?_⟩ <;> decide

/-- C1 counterexample: a valid photo with two confident very-sad, very-angry
faces has emotion score −1/5, outside [0,1]; and on the inputs the bounds
theorem excludes — one face with no dominant colors, or a single dominant
color — the source's blur score is `NaN` (the guarded evaluator returns
`none`), so quality is not in [0,1] there either. -/
theorem C1_counterexample :
    (ValidRaw rawSad
      ∧ calculateEmotionScore (mkAnalysis ratSqrt rawSad).faces = -(1/5)
      ∧ ¬ 0 ≤ calculateEmotionScore (mkAnalysis ratSqrt rawSad).faces)
    ∧ evaluateBlurFin ratSqrt rawOneFace = none
    ∧ evaluateBlurFin ratSqrt rawOneColor = none := by
  refine ⟨⟨⟨by decide, by decide, by decide, by decide,
    (by decide : rawSad.faceAnns.length ≠ 1)⟩, by decide, by decide⟩,
    by decide, by decide⟩

/-- C1 witness: the amended bounds applied to a photo with an empty valid
annotation, a one-photo pool, empty frequency tables and the range [0,2]. -/
theorem C1_witness :
    ValidRaw rawEmpty
    ∧ ((0 ≤ (scorePhoto ratSqrt poolC1 freqsEmpty optsC1
          ⟨⟨("p1"), 1, none⟩, mkAnalysis ratSqrt rawEmpty⟩).scores.quality
        ∧ (scorePhoto ratSqrt poolC1 freqsEmpty optsC1
          ⟨⟨("p1"), 1, none⟩, mkAnalysis ratSqrt rawEmpty⟩).scores.quality ≤ 1)
      ∧ (0 ≤ (scorePhoto ratSqrt poolC1 freqsEmpty optsC1
          ⟨⟨("p1"), 1, none⟩, mkAnalysis ratSqrt rawEmpty⟩).scores.interest
        ∧ (scorePhoto ratSqrt poolC1 freqsEmpty optsC1
          ⟨⟨("p1"), 1, none⟩, mkAnalysis ratSqrt rawEmpty⟩).scores.interest ≤ 28/25)
      ∧ (-(1/5) ≤ (scorePhoto ratSqrt poolC1 freqsEmpty optsC1
          ⟨⟨("p1"), 1, none⟩, mkAnalysis ratSqrt rawEmpty⟩).scores.emotion
        ∧ (scorePhoto ratSqrt poolC1 freqsEmpty optsC1
          ⟨⟨("p1"), 1, none⟩, mkAnalysis ratSqrt rawEmpty⟩).scores.emotion ≤ 1)
      ∧ (0 ≤ (scorePhoto ratSqrt poolC1 freqsEmpty optsC1
          ⟨⟨("p1"), 1, none⟩, mkAnalysis ratSqrt rawEmpty⟩).scores.uniqueness
        ∧ (scorePhoto ratSqrt poolC1 freqsEmpty optsC1
          ⟨⟨("p1"), 1, none⟩, mkAnalysis ratSqrt rawEmpty⟩).scores.uniqueness ≤ 1)
      ∧ (0 ≤ (scorePhoto ratSqrt poolC1 freqsEmpty optsC1
          ⟨⟨("p1"), 1, none⟩, mkAnalysis ratSqrt rawEmpty⟩).scores.relevance
        ∧ (scorePhoto ratSqrt poolC1 freqsEmpty optsC1
          ⟨⟨("p1"), 1, none⟩, mkAnalysis ratSqrt rawEmpty⟩).scores.relevance ≤ 1)
      ∧ (0 ≤ (scorePhoto ratSqrt poolC1 freqsEmpty optsC1
          ⟨⟨("p1"), 1, none⟩, mkAnalysis ratSqrt rawEmpty⟩).scores.temporal
        ∧ (scorePhoto ratSqrt poolC1 freqsEmpty optsC1
          ⟨⟨("p1"), 1, none⟩, mkAnalysis ratSqrt rawEmpty⟩).scores.temporal ≤ 1)
      ∧ (-(3/100) ≤ (scorePhoto ratSqrt poolC1 freqsEmpty optsC1
          ⟨⟨("p1"), 1, none⟩, mkAnalysis ratSqrt rawEmpty⟩).scores.final
        ∧ (scorePhoto ratSqrt poolC1 freqsEmpty optsC1
          ⟨⟨("p1"), 1, none⟩, mkAnalysis ratSqrt rawEmpty⟩).scores.final ≤ 128/125)) :=
  ⟨⟨by decide, by decide, by decide, by decide,
      (by decide : rawEmpty.faceAnns.length ≠ 1)⟩,
    C1_score_bounds ratSqrt sqrtOK_ratSqrt poolC1 freqsEmpty optsC1 rawEmpty
      ⟨("p1"), 1, none⟩
      ⟨by decide, by decide, by decide, by decide,
        (by decide : rawEmpty.faceAnns.length ≠ 1)⟩
      (by decide) (by decide) (by decide) (by decide) rfl⟩

end ConcreteEvaluation

end NCV
